import Mathlib

/-!
Verification model of the `pedram_intelligence` multi-phase LLM pipeline
(`intelligence_question_generator.py`, `app.py`).

Modelling conventions:
* Python strings are `List Char`; Python `None` inputs and empty strings both
  behave as falsy, matching the source's truthiness checks.
* The LLM gateway (`call_openrouter_api`) is modelled as an oracle value of
  type `Option (List Char)`: `some content` is a response whose first choice
  carries `content` (a `null`/empty content is `some []`, which the code
  treats identically to an empty string), `none` is a transport failure or a
  response without choices.  This matches the two-outcome contract the
  pipeline relies on.
* Python run-time exceptions (AttributeError / TypeError raised on malformed
  parsed JSON, e.g. calling `.get` on a non-dict or using `in` on a number)
  are modelled by the phase functions returning `none`: the function raises
  and returns nothing.  Phase functions therefore have type `... → Option _`.
* `json.loads` is modelled by `jsonParse` over the integer fragment of JSON
  (ints, strings with the common escapes, booleans, null, arrays, objects;
  floats and the non-standard NaN/Infinity literals are outside the model and
  make the model parser fail).  Duplicate object keys keep the first key's
  position with the last value, exactly as a Python dict built by the decoder.
* Python `==` on parsed JSON values is modelled structurally (`jbeq`); the
  order-insensitivity of dict equality and `1 == True` are outside the model,
  which only ever compares scalar `question_number` values in practice.
-/

/-- Characters Python's `json` module treats as whitespace: space, tab,
linefeed, carriage return. -/
def isWsJ (c : Char) : Bool :=
  c = ' ' || c = '\t' || c = '\n' || c = '\r'

/-- Characters matched by the regex class `\s` and stripped by `str.strip`
(ASCII fragment): the JSON whitespace plus vertical tab and form feed. -/
def isWsRe (c : Char) : Bool :=
  c = ' ' || c = '\t' || c = '\n' || c = '\r' || c = Char.ofNat 11 || c = Char.ofNat 12

/-- The backtick character (written via its code point). -/
def btk : Char := Char.ofNat 96

/-- `startsWithL pat s` is true when `pat` is a prefix of `s`. -/
def startsWithL : List Char → List Char → Bool
  | [], _ => true
  | _ :: _, [] => false
  | p :: ps, c :: cs => p = c && startsWithL ps cs

/-- Substring test (`pat in s` for Python strings): some suffix of `s`
starts with `pat`. -/
def containsSub (pat : List Char) : List Char → Bool
  | [] => startsWithL pat []
  | c :: rest => startsWithL pat (c :: rest) || containsSub pat rest

/-- A JSON value as produced by the modelled `json.loads` (integer-number
fragment). -/
inductive Json where
  | null : Json
  | bool : Bool → Json
  | num : Int → Json
  | str : List Char → Json
  | arr : List Json → Json
  | obj : List (List Char × Json) → Json

mutual

/-- Structural equality of JSON values. -/
def jbeqB : Json → Json → Bool
  | Json.null, Json.null => true
  | Json.bool x, Json.bool y => x == y
  | Json.num x, Json.num y => x == y
  | Json.str x, Json.str y => x == y
  | Json.arr x, Json.arr y => jbeqBL x y
  | Json.obj x, Json.obj y => jbeqBKV x y
  | _, _ => false

/-- Structural equality of JSON value lists. -/
def jbeqBL : List Json → List Json → Bool
  | [], [] => true
  | x :: xs, y :: ys => jbeqB x y && jbeqBL xs ys
  | _, _ => false

/-- Structural equality of JSON member lists. -/
def jbeqBKV : List (List Char × Json) → List (List Char × Json) → Bool
  | [], [] => true
  | (k1, v1) :: xs, (k2, v2) :: ys => k1 == k2 && jbeqB v1 v2 && jbeqBKV xs ys
  | _, _ => false

end

mutual

/-- `jbeqB` decides propositional equality. -/
theorem jbeqB_iff : (a b : Json) → (jbeqB a b = true ↔ a = b)
  | Json.null, b => by cases b <;> simp [jbeqB]
  | Json.bool x, b => by cases b <;> simp [jbeqB]
  | Json.num x, b => by cases b <;> simp [jbeqB]
  | Json.str x, b => by cases b <;> simp [jbeqB]
  | Json.arr x, b => by
    cases b <;> simp [jbeqB]
    exact jbeqBL_iff x _
  | Json.obj x, b => by
    cases b <;> simp [jbeqB]
    exact jbeqBKV_iff x _

/-- `jbeqBL` decides propositional equality. -/
theorem jbeqBL_iff : (a b : List Json) → (jbeqBL a b = true ↔ a = b)
  | [], b => by cases b <;> simp [jbeqBL]
  | _ :: _, [] => by simp [jbeqBL]
  | x :: xs, y :: ys => by
    simp [jbeqBL, jbeqB_iff x y, jbeqBL_iff xs ys]

/-- `jbeqBKV` decides propositional equality. -/
theorem jbeqBKV_iff : (a b : List (List Char × Json)) → (jbeqBKV a b = true ↔ a = b)
  | [], b => by cases b <;> simp [jbeqBKV]
  | _ :: _, [] => by simp [jbeqBKV]
  | (k1, v1) :: xs, (k2, v2) :: ys => by
    simp [jbeqBKV, jbeqB_iff v1 v2, jbeqBKV_iff xs ys]

end

instance : DecidableEq Json := fun a b => decidable_of_iff _ (jbeqB_iff a b)

/-- Structural model of Python `==` on parsed JSON values. -/
def jbeq (a b : Json) : Bool := decide (a = b)

/-- Python `==` between two `dict.get` results, where both being `None`
compares equal. -/
def optBeq : Option Json → Option Json → Bool
  | none, none => true
  | some a, some b => jbeq a b
  | _, _ => false

/-- Python truthiness of a parsed JSON value (`if parsed_json:`):
`None`/`False`/`0`/empty containers and strings are falsy. -/
def jsonTruthy : Json → Bool
  | Json.null => false
  | Json.bool b => b
  | Json.num n => n != 0
  | Json.str s => !s.isEmpty
  | Json.arr l => !l.isEmpty
  | Json.obj m => !m.isEmpty

/-- First-match association lookup (model of indexing a Python dict whose
keys are unique, which the decoder and the mutation model maintain). -/
def lookupKV (k : List Char) : List (List Char × Json) → Option Json
  | [] => none
  | (k0, v) :: rest => if k0 = k then some v else lookupKV k rest

/-- Python dict insertion `d[k] = v`: replace in place if the key exists
(keeping its position), otherwise append. -/
def insertAssoc {β : Type} (k : List Char) (v : β) :
    List (List Char × β) → List (List Char × β)
  | [] => [(k, v)]
  | (k0, v0) :: rest =>
    if k0 = k then (k0, v) :: rest else (k0, v0) :: insertAssoc k v rest

/-- `dict.get(k)` on a value known to be a dict; `none` for anything else
(call sites establish dict-ness before using this, mirroring where Python
would raise otherwise). -/
def jget : Json → List Char → Option Json
  | Json.obj kvs, k => lookupKV k kvs
  | _, _ => none

/-- Whether a JSON value is an object (a Python dict). -/
def isObjB : Json → Bool
  | Json.obj _ => true
  | _ => false

/-- `d[k] = v` on a JSON object; other values are returned unchanged (call
sites only apply this to objects). -/
def setKeyJ (j : Json) (k : List Char) (v : Json) : Json :=
  match j with
  | Json.obj kvs => Json.obj (insertAssoc k v kvs)
  | other => other

/-- Option-valued map over a list: `some` of the image when every element
maps to `some`, else `none`.  Models a Python loop that can raise. -/
def omap {α β : Type} (f : α → Option β) : List α → Option (List β)
  | [] => some []
  | a :: as =>
    match f a, omap f as with
    | some b, some bs => some (b :: bs)
    | _, _ => none

/-- Decimal digit test. -/
def isDigitC (c : Char) : Bool := '0' ≤ c && c ≤ '9'

/-- Value of a decimal digit character. -/
def digitVal (c : Char) : Nat := c.toNat - 48

/-- Value of a hexadecimal digit character, if it is one. -/
def hexVal (c : Char) : Option Nat :=
  if '0' ≤ c && c ≤ '9' then some (c.toNat - 48)
  else if 'a' ≤ c && c ≤ 'f' then some (c.toNat - 87)
  else if 'A' ≤ c && c ≤ 'F' then some (c.toNat - 55)
  else none

/-- Fold a digit run into a natural number. -/
def digitsToNat (acc : Nat) : List Char → Nat
  | [] => acc
  | c :: rest => digitsToNat (acc * 10 + digitVal c) rest

/-- Skip JSON whitespace. -/
def skipWsJ (s : List Char) : List Char := s.dropWhile isWsJ

/-- Parse a JSON string body after the opening quote: returns the decoded
characters and the remainder after the closing quote.  Strict mode: raw
control characters are rejected; the common escapes and `\uXXXX` are
decoded. -/
def parseStrBody : List Char → Option (List Char × List Char)
  | [] => none
  | '"' :: rest => some ([], rest)
  | '\\' :: 'u' :: h1 :: h2 :: h3 :: h4 :: rest =>
    match hexVal h1, hexVal h2, hexVal h3, hexVal h4 with
    | some a, some b, some c, some d =>
      match parseStrBody rest with
      | some (cs, r) => some (Char.ofNat (((a * 16 + b) * 16 + c) * 16 + d) :: cs, r)
      | none => none
    | _, _, _, _ => none
  | '\\' :: e :: rest =>
    match
      (if e = '"' then some '"'
       else if e = '\\' then some '\\'
       else if e = '/' then some '/'
       else if e = 'n' then some '\n'
       else if e = 't' then some '\t'
       else if e = 'r' then some '\r'
       else if e = 'b' then some (Char.ofNat 8)
       else if e = 'f' then some (Char.ofNat 12)
       else none) with
    | some c =>
      match parseStrBody rest with
      | some (cs, r) => some (c :: cs, r)
      | none => none
    | none => none
  | c :: rest =>
    if c.toNat < 32 then none
    else
      match parseStrBody rest with
      | some (cs, r) => some (c :: cs, r)
      | none => none

/-- Parse an unsigned JSON integer (grammar `0 | [1-9][0-9]*`); a following
`.`/`e`/`E` would start a float, which is outside the model, so the model
parser fails there. -/
def parseIntBody : List Char → Option (Int × List Char)
  | [] => none
  | c :: rest =>
    if c = '0' then
      match rest with
      | [] => some (0, [])
      | d :: _ =>
        if isDigitC d || d = '.' || d = 'e' || d = 'E' then none
        else some (0, rest)
    else if isDigitC c then
      let ds := rest.takeWhile isDigitC
      let r2 := rest.dropWhile isDigitC
      match r2 with
      | [] => some (Int.ofNat (digitsToNat (digitVal c) ds), [])
      | d :: _ =>
        if d = '.' || d = 'e' || d = 'E' then none
        else some (Int.ofNat (digitsToNat (digitVal c) ds), r2)
    else none

mutual

/-- Parse one JSON value at the head of the input (no leading whitespace);
fuel bounds the recursion depth and is always sufficient when it exceeds the
input length. -/
def parseV : Nat → List Char → Option (Json × List Char)
  | 0, _ => none
  | Nat.succ fu, s =>
    match s with
    | [] => none
    | c :: rest =>
      if c = 'n' then
        match rest with
        | 'u' :: 'l' :: 'l' :: r => some (Json.null, r)
        | _ => none
      else if c = 't' then
        match rest with
        | 'r' :: 'u' :: 'e' :: r => some (Json.bool true, r)
        | _ => none
      else if c = 'f' then
        match rest with
        | 'a' :: 'l' :: 's' :: 'e' :: r => some (Json.bool false, r)
        | _ => none
      else if c = '"' then
        match parseStrBody rest with
        | some (cs, r) => some (Json.str cs, r)
        | none => none
      else if c = '-' then
        match parseIntBody rest with
        | some (n, r) => some (Json.num (-n), r)
        | none => none
      else if isDigitC c then
        match parseIntBody s with
        | some (n, r) => some (Json.num n, r)
        | none => none
      else if c = '[' then
        match skipWsJ rest with
        | ']' :: r => some (Json.arr [], r)
        | s1 =>
          match parseArrItems fu s1 with
          | some (es, r) => some (Json.arr es, r)
          | none => none
      else if c = Char.ofNat 123 then
        match skipWsJ rest with
        | s1 =>
          if startsWithL [Char.ofNat 125] s1 then
            some (Json.obj [], s1.drop 1)
          else
            match parseObjItems fu s1 with
            | some (ms, r) =>
              some (Json.obj (ms.foldl (fun acc kv => insertAssoc kv.1 kv.2 acc) []), r)
            | none => none
      else none

/-- Parse the comma-separated items of a JSON array, positioned at the first
item; consumes the closing bracket. -/
def parseArrItems : Nat → List Char → Option (List Json × List Char)
  | 0, _ => none
  | Nat.succ fu, s =>
    match parseV fu s with
    | none => none
    | some (v, r) =>
      match skipWsJ r with
      | ',' :: r2 =>
        match parseArrItems fu (skipWsJ r2) with
        | some (es, r3) => some (v :: es, r3)
        | none => none
      | ']' :: r2 => some ([v], r2)
      | _ => none

/-- Parse the members of a JSON object, positioned at the first key's quote;
consumes the closing brace.  Members are returned in document order. -/
def parseObjItems : Nat → List Char → Option (List (List Char × Json) × List Char)
  | 0, _ => none
  | Nat.succ fu, s =>
    match s with
    | '"' :: rest =>
      match parseStrBody rest with
      | none => none
      | some (k, r) =>
        match skipWsJ r with
        | ':' :: r2 =>
          match parseV fu (skipWsJ r2) with
          | none => none
          | some (v, r3) =>
            match skipWsJ r3 with
            | ',' :: r4 =>
              match parseObjItems fu (skipWsJ r4) with
              | some (ms, r5) => some ((k, v) :: ms, r5)
              | none => none
            | d :: r4 =>
              if d = Char.ofNat 125 then some ([(k, v)], r4) else none
            | [] => none
        | _ => none
    | _ => none

end

/-- Model of Python `json.loads`: skip surrounding whitespace, parse exactly
one value, fail on trailing non-whitespace data.  Objects are deduplicated at
construction inside `parseV`, like the decoder building a Python dict. -/
def jsonParse (s : List Char) : Option Json :=
  match parseV (s.length + 1) (skipWsJ s) with
  | some (v, r) => if skipWsJ r = [] then some v else none
  | none => none

example : jsonParse ("\x7b\"a\": 1\x7d".toList) = some (Json.obj [("a".toList, Json.num 1)]) := by
  decide

example : jsonParse ("\x7b\"a\": 1\x7d tail".toList) = none := by decide

example : jsonParse (" [1, -2, \"x\", true, null] ".toList) =
    some (Json.arr [Json.num 1, Json.num (-2), Json.str "x".toList,
      Json.bool true, Json.null]) := by decide

/-! ## `parse_json_from_llm_response` (source lines 141-161)

The regex search `re.search(r"```json\s*([\s\S]*?)\s*```", content)` is
modelled by `searchFence`: the match starts at the leftmost occurrence of
the literal fence opener; the leading greedy `\s*` takes the maximal
whitespace run (backtracking never shortens it because the lazy group can
absorb anything); the lazy group then ends at the earliest position from
which a whitespace run followed by three backticks completes the match,
which `findGroup` computes.  If no closing fence follows an opener the
search continues from the next position. -/

/-- The seven characters of the opening fence tag. -/
def fenceOpenL : List Char := [btk, btk, btk, 'j', 's', 'o', 'n']

/-- Three backticks: the closing fence. -/
def ticksL : List Char := [btk, btk, btk]

/-- Lazy-group extent: the shortest prefix of the input after which a
whitespace run followed by `"``` "` begins; `none` when no closing fence
exists. -/
def findGroup : List Char → Option (List Char)
  | [] => none
  | c :: rest =>
    if startsWithL ticksL ((c :: rest).dropWhile isWsRe) then some []
    else
      match findGroup rest with
      | some g => some (c :: g)
      | none => none

/-- Leftmost regex match: group 1 of the fence pattern, if any. -/
def searchFence : List Char → Option (List Char)
  | [] => none
  | c :: rest =>
    if startsWithL fenceOpenL (c :: rest) then
      match findGroup (((c :: rest).drop 7).dropWhile isWsRe) with
      | some g => some g
      | none => searchFence rest
    else searchFence rest

/-- `parse_json_from_llm_response`: falsy content parses to nothing; a
fenced block's group, else the whole content, is handed to `json.loads`,
with decode errors producing `None`. -/
def parse_json_from_llm_response (content : List Char) : Option Json :=
  if content.isEmpty then none
  else
    match searchFence content with
    | some g => jsonParse g
    | none => jsonParse content

/-! ## Phase 2: `extract_questions_from_pms_response`, `generate_pms_questions`
(source lines 200-254) -/

/-- Decimal digits of a natural number, as Python `str(n)`. -/
def natChars (n : Nat) : List Char := Nat.toDigits 10 n

/-- Python `str.strip()` (ASCII whitespace fragment). -/
def pyTrim (s : List Char) : List Char :=
  ((s.dropWhile isWsRe).reverse.dropWhile isWsRe).reverse

/-- `str.split('\n')`, keeping empty segments. -/
def splitNlAux (acc : List Char) : List Char → List (List Char)
  | [] => [acc.reverse]
  | c :: rest =>
    if c = '\n' then acc.reverse :: splitNlAux [] rest
    else splitNlAux (c :: acc) rest

/-- `content.split('\n')`. -/
def splitNl (s : List Char) : List (List Char) := splitNlAux [] s

/-- Sentinel for a response with empty/absent content. -/
def failContentSentinel : List Char := "[Model failed to provide content]".toList

/-- Sentinel padding entry number `n` for a short response. -/
def fewerSentinel (n : Nat) : List Char :=
  "[Model provided fewer than 10 questions, placeholder ".toList ++ natChars n ++ "]".toList

/-- Sentinel for a model whose gateway call failed. -/
def failModelSentinel (m : List Char) : List Char :=
  "[Failed to generate question from model ".toList ++ m ++ "]".toList

/-- `extract_questions_from_pms_response`: empty content gives ten
empty-content sentinels; otherwise split on newlines, strip, drop blanks,
then pad with numbered placeholders up to ten or truncate to ten. -/
def extract_questions_from_pms_response (content : List Char) : List (List Char) :=
  if content.isEmpty then List.replicate 10 failContentSentinel
  else
    let qs := ((splitNl content).map pyTrim).filter (fun q => !q.isEmpty)
    if qs.length < 10 then
      qs ++ ((List.range 10).drop qs.length).map (fun i => fewerSentinel (i + 1))
    else qs.take 10

/-- Per-model Phase 2 result: extracted questions on a content-bearing
response, ten failure sentinels otherwise. -/
def modelQuestions (m : List Char) (resp : Option (List Char)) : List (List Char) :=
  match resp with
  | some content => extract_questions_from_pms_response content
  | none => List.replicate 10 (failModelSentinel m)

/-- `generate_pms_questions` over the fixed model list, with the gateway
modelled by one oracle entry per model; results accumulate into a dict in
call order. -/
def generate_pms_questions (models : List (List Char))
    (oracle : List (Option (List Char))) : List (List Char × List (List Char)) :=
  (models.enum.map (fun p => (p.2, modelQuestions p.2 (oracle.getD p.1 none)))).foldl
    (fun acc kv => insertAssoc kv.1 kv.2 acc) []

/-! ## Phase 3: `create_consolidation_prompt` flattening and
`consolidate_questions` (source lines 258-353) -/

/-- The flattening step of `create_consolidation_prompt` (lines 260-264):
all models' questions in dict order, excluding entries starting with
`"[Failed"` or `"[Model provided fewer"`. -/
def flattenQuestions (pms : List (List Char × List (List Char))) : List (List Char) :=
  ((pms.map Prod.snd).flatten).filter (fun q =>
    !startsWithL "[Failed".toList q && !startsWithL "[Model provided fewer".toList q)

/-- Key strings used by the pipeline's JSON payloads. -/
def kQN : List Char := "question_number".toList

/-- `question_text` key. -/
def kQT : List Char := "question_text".toList

/-- `reasoning` key. -/
def kReasoning : List Char := "reasoning".toList

/-- `final_questions` key. -/
def kFQ : List Char := "final_questions".toList

/-- A Phase 3 placeholder record. -/
def consolidationPlaceholder (n : Nat) (txt reason : List Char) : Json :=
  Json.obj [(kQN, Json.num (Int.ofNat n)), (kQT, Json.str txt), (kReasoning, Json.str reason)]

/-- Evaluation of `parsed and key in parsed and isinstance(parsed[key], list)`
on a parse result: `some (some l)` when it selects list `l`, `some none` when
the condition is false (fallback), `none` when Python raises (`in` on a
number, or indexing a list/str by the string key after a successful `in`). -/
def extractListKey (key : List Char) : Option Json → Option (Option (List Json))
  | none => some none
  | some p =>
    if !jsonTruthy p then some none
    else
      match p with
      | Json.obj kvs =>
        match lookupKV key kvs with
        | some (Json.arr l) => some (some l)
        | some _ => some none
        | none => some none
      | Json.arr l => if l.any (fun x => jbeq x (Json.str key)) then none else some none
      | Json.str s => if containsSub key s then none else some none
      | _ => none

/-- The Phase 3 padding record for missing question `n`. -/
def missingQuestionRecord (n : Nat) : Json :=
  Json.obj [(kQN, Json.num (Int.ofNat n)),
    (kQT, Json.str ("[Consolidation Error: Missing question ".toList ++ natChars n ++ "]".toList)),
    (kReasoning, Json.str "[Error]".toList)]

/-- Lines 332-353 of `consolidate_questions`: pad a short list with
numbered missing-question records up to 5, truncate a long one to 5, then
run the display loop (which raises on a non-dict record). -/
def consolidateTail (l0 : List Json) : Option (List Json) :=
  let l1 :=
    if l0.length < 5 then
      l0 ++ ((List.range 5).drop l0.length).map (fun i => missingQuestionRecord (i + 1))
    else l0.take 5
  if l1.all isObjB then some l1 else none

/-- The five placeholder records used when the gateway call fails. -/
def noResponsePlaceholders : List Json :=
  (List.range 5).map (fun i =>
    consolidationPlaceholder (i + 1) "[Consolidation Error: No LLM response]".toList "N/A".toList)

/-- The five placeholder records used when the response fails to parse. -/
def parseErrorPlaceholders : List Json :=
  (List.range 5).map (fun i =>
    consolidationPlaceholder (i + 1) "[Consolidation Error: Failed to parse]".toList "N/A".toList)

/-- `consolidate_questions`: the oracle models the single high-reasoning
gateway call; `pms` only feeds the prompt.  Returns `none` when the Python
code would raise (malformed parsed values reaching `in`/`.get`). -/
def consolidate_questions (pms : List (List Char × List (List Char)))
    (response : Option (List Char)) : Option (List Json) :=
  let _ := flattenQuestions pms
  match response with
  | none => consolidateTail noResponsePlaceholders
  | some content =>
    match extractListKey kFQ (parse_json_from_llm_response content) with
    | none => none
    | some (some l) => consolidateTail l
    | some none => consolidateTail parseErrorPlaceholders

/-! ## Phase 4: `perform_risk_assessment` (source lines 412-480) -/

/-- `risk_assessments` key. -/
def kRA : List Char := "risk_assessments".toList

/-- `risk_category` key. -/
def kRC : List Char := "risk_category".toList

/-- `probability` key. -/
def kProb : List Char := "probability".toList

/-- `impact` key. -/
def kImp : List Char := "impact".toList

/-- `risk_score` key. -/
def kScore : List Char := "risk_score".toList

/-- `risk_tier` key. -/
def kTier : List Char := "risk_tier".toList

/-- `justification` key. -/
def kJust : List Char := "justification".toList

/-- The parsed risk list selected by lines 423-427: `some none` when the
fallback (empty list) branch is taken, `none` when Python raises. -/
def parsedRiskList (response : Option (List Char)) : Option (Option (List Json)) :=
  match response with
  | none => some none
  | some content => extractListKey kRA (parse_json_from_llm_response content)

/-- First question whose `question_number` equals `rn` (lines 429-432);
`none` models the AttributeError on a non-dict question. -/
def findQuestion (rn : Option Json) : List Json → Option (Option Json)
  | [] => some none
  | Json.obj kvs :: rest =>
    if optBeq (lookupKV kQN kvs) rn then some (some (Json.obj kvs))
    else findQuestion rn rest
  | _ :: _ => none

/-- The enrichment loop body of lines 429-432: add the original question's
text when the parsed item lacks a `question_text` key. -/
def enrichItem (questions : List Json) : Json → Option Json
  | Json.obj kvs =>
    match findQuestion (lookupKV kQN kvs) questions with
    | none => none
    | some none => some (Json.obj kvs)
    | some (some q) =>
      if !jsonTruthy q then some (Json.obj kvs)
      else if (lookupKV kQT kvs).isSome then some (Json.obj kvs)
      else some (Json.obj (kvs ++ [(kQT, (jget q kQT).getD Json.null)]))
  | _ => none

/-- The uniform error-placeholder record built per question (lines 442-449). -/
def placeholderRisk : Json → Option Json
  | Json.obj qkvs => some (Json.obj [
      (kQN, (lookupKV kQN qkvs).getD Json.null),
      (kQT, (lookupKV kQT qkvs).getD Json.null),
      (kRC, Json.str "[Assessment Error]".toList),
      (kProb, Json.num 0),
      (kImp, Json.num 0),
      (kScore, Json.num 0),
      (kTier, Json.str "Error".toList),
      (kJust, Json.str "Failed to get or parse assessment from LLM.".toList)])
  | _ => none

/-- The sort key `x.get("risk_score", 0)` (line 452): absent key is `0`,
Python booleans are ints; any other value makes CPython's sort raise when
compared with an int, which the model renders as `none` (all-non-numeric
lists that Python would sort lexicographically are outside the model). -/
def scoreKey : Json → Option Int
  | Json.obj kvs =>
    match lookupKV kScore kvs with
    | none => some 0
    | some (Json.num n) => some n
    | some (Json.bool b) => some (if b then 1 else 0)
    | some _ => none
  | _ => none

/-- Stable descending insertion: an element goes before the first strictly
smaller key and after earlier elements with an equal key, reproducing
`list.sort(key=..., reverse=True)` stability. -/
def insertScoreDesc (x : Json × Int) : List (Json × Int) → List (Json × Int)
  | [] => [x]
  | y :: ys => if y.2 ≤ x.2 then x :: y :: ys else y :: insertScoreDesc x ys

/-- Stable descending sort of keyed records. -/
def sortScoreDesc : List (Json × Int) → List (Json × Int)
  | [] => []
  | x :: xs => insertScoreDesc x (sortScoreDesc xs)

/-- Line 452's sort, `none` when a key is not comparable to an int. -/
def sortRisks (l : List Json) : Option (List Json) :=
  match omap (fun r => (scoreKey r).map (fun s => (r, s))) l with
  | some keyed => some ((sortScoreDesc keyed).map Prod.fst)
  | none => none

/-- Count of records whose `risk_tier` equals `t` (lines 467-469). -/
def countTier (t : List Char) (l : List Json) : Nat :=
  (l.filter (fun r => optBeq (jget r kTier) (some (Json.str t)))).length

/-- The dict returned by `perform_risk_assessment` (lines 472-480). -/
structure RiskOutput where
  risks : List Json
  high_risks : Nat
  medium_risks : Nat
  low_risks : Nat
  total_risks_assessed : Nat
deriving DecidableEq

/-- Whether the all-or-nothing placeholder substitution of lines 440-449
fires for this parse outcome. -/
def riskMismatch (questions : List Json) (response : Option (List Char)) : Bool :=
  match parsedRiskList response with
  | some (some l) => l.isEmpty || l.length != questions.length
  | some none => true
  | none => true

/-- Lines 451-480: sort the final list by descending risk score, then build
the returned dict with its summary stats. -/
def riskFinish (cl : List Json) : Option RiskOutput :=
  match sortRisks cl with
  | none => none
  | some sorted =>
    some { risks := sorted,
           high_risks := countTier "High".toList sorted,
           medium_risks := countTier "Medium".toList sorted,
           low_risks := countTier "Low".toList sorted,
           total_risks_assessed := sorted.length }

/-- `perform_risk_assessment`: parse, enrich, substitute placeholders on a
count mismatch, sort by descending risk score, and compute summary stats. -/
def perform_risk_assessment (questions : List Json) (response : Option (List Char)) :
    Option RiskOutput :=
  match parsedRiskList response with
  | none => none
  | some pl =>
    match (match pl with | some l => omap (enrichItem questions) l | none => some []) with
    | none => none
    | some lst =>
      match (if lst.isEmpty || lst.length != questions.length
             then omap placeholderRisk questions else some lst) with
      | none => none
      | some cl => riskFinish cl

/-! ## Phase 5: `develop_derisking_strategies` (source lines 554-620) -/

/-- `de_risking_plan` key. -/
def kDRP : List Char := "de_risking_plan".toList

/-- `error` key. -/
def kErr : List Char := "error".toList

/-- `raw_response_snippet` key. -/
def kSnippet : List Char := "raw_response_snippet".toList

/-- `status` key. -/
def kStatus : List Char := "status".toList

/-- The parse-failure plan dict of line 601. -/
def planErrObj (content : List Char) : Json :=
  Json.obj [(kErr, Json.str "Failed to parse strategies from LLM.".toList),
            (kSnippet, Json.str (content.take 200))]

/-- Plan attached to a selected risk from one gateway call (lines 591-604);
`none` models the raise on a malformed parsed value. -/
def planFromResponse (resp : Option (List Char)) : Option Json :=
  match resp with
  | none => some (Json.obj [(kErr, Json.str "No LLM response for strategies.".toList)])
  | some content =>
    match parse_json_from_llm_response content with
    | none => some (planErrObj content)
    | some p =>
      if !jsonTruthy p then some (planErrObj content)
      else
        match p with
        | Json.obj kvs =>
          match lookupKV kDRP kvs with
          | some v => some v
          | none => some (planErrObj content)
        | Json.arr l =>
          if l.any (fun x => jbeq x (Json.str kDRP)) then none else some (planErrObj content)
        | Json.str s => if containsSub kDRP s then none else some (planErrObj content)
        | _ => none

/-- Line 581's `is_high_priority` test: some high-priority record shares the
item's `question_number` (both possibly absent, `None == None`). -/
def matchHp (hp : List Json) (item : Json) : Bool :=
  hp.any (fun h => optBeq (jget h kQN) (jget item kQN))

/-- The "not selected" marker used inside the strategy loop (line 610). -/
def notThisRunMarker : Json :=
  Json.obj [(kStatus, Json.str "Not high priority for strategy generation this run".toList)]

/-- The "not selected" marker used when no record is high priority (line 569). -/
def noHpMarker : Json :=
  Json.obj [(kStatus, Json.str "Not high priority for strategy generation".toList)]

/-- The per-record loop of lines 579-610: selected records consume oracle
responses in order; unselected records receive the marker unless they
already carry a `de_risking_plan` key. -/
def deriskLoop (hp : List Json) (oracle : List (Option (List Char))) :
    List Json → Nat → Nat → Option (List Json × List Nat)
  | [], _, _ => some ([], [])
  | item :: rest, idx, used =>
    if matchHp hp item then
      match planFromResponse (oracle.getD used none) with
      | none => none
      | some plan =>
        match deriskLoop hp oracle rest (idx + 1) (used + 1) with
        | some (os, atts) => some (setKeyJ item kDRP plan :: os, idx :: atts)
        | none => none
    else
      let item2 := if (jget item kDRP).isSome then item else setKeyJ item kDRP notThisRunMarker
      match deriskLoop hp oracle rest (idx + 1) used with
      | some (os, atts) => some (item2 :: os, atts)
      | none => none

/-- `develop_derisking_strategies`: returns the updated records and the list
of indices for which a strategy-generation call was attempted. -/
def develop_derisking_strategies (l : List Json) (oracle : List (Option (List Char))) :
    Option (List Json × List Nat) :=
  if !(l.all (fun r => (scoreKey r).isSome)) then none
  else
    let hp := (l.filter (fun r => decide (15 ≤ (scoreKey r).getD 0))).take 3
    if hp.isEmpty then
      some (l.map (fun r => if (jget r kDRP).isSome then r else setKeyJ r kDRP noHpMarker), [])
    else deriskLoop hp oracle l 0 0

/-! ## Phase 6: `perform_strategic_reflection` (source lines 840-919) -/

/-- `i_like_reflection` key. -/
def kLike : List Char := "i_like_reflection".toList

/-- `i_wish_reflection` key. -/
def kWish : List Char := "i_wish_reflection".toList

/-- `i_wonder_reflection` key. -/
def kWonder : List Char := "i_wonder_reflection".toList

/-- `risks` key. -/
def kRisks : List Char := "risks".toList

/-- A risk record's `justification` must be sliceable for the prompt's
top-3 recap; the model conservatively requires it for all records. -/
def justOk (r : Json) : Bool :=
  match jget r kJust with
  | none => true
  | some (Json.str _) => true
  | some (Json.arr _) => true
  | some _ => false

/-- Crash-freedom of the prompt construction over `final_questions`. -/
def fqArgOk (j : Json) : Bool :=
  if jsonTruthy j then
    match j with
    | Json.arr l => (l.take 5).all isObjB
    | _ => true
  else true

/-- Crash-freedom of the prompt construction over the risk bundle. -/
def raArgOk (j : Json) : Bool :=
  if jsonTruthy j then
    match j with
    | Json.obj kvs =>
      match lookupKV kRisks kvs with
      | some (Json.arr l) => l.all (fun r => (scoreKey r).isSome && justOk r)
      | _ => true
    | _ => false
  else true

/-- Crash-freedom of the de-risking theme digest (lines 855-869). -/
def drArgOk (j : Json) : Bool :=
  if jsonTruthy j then
    match j with
    | Json.arr l => l.all isObjB
    | _ => true
  else true

/-- Conjunction of the three prompt-side crash-freedom conditions. -/
def reflectArgsOk (fq ra dr : Json) : Bool := fqArgOk fq && raArgOk ra && drArgOk dr

/-- A reflection value that is truthy but not iterable: printing it at
lines 898-906 raises before any artifact is returned or written. -/
def badReflectVal : Json → Bool
  | Json.num n => n != 0
  | Json.bool b => b
  | _ => false

/-- Stage of `perform_strategic_reflection` after a successful parse
(source lines 889-919): the three-key membership test, then display,
file write and return; the pair is (returned artifact, whether the
reflection file was written); `none` models a raise. -/
def reflectStep (p : Json) : Option (Option Json × Bool) :=
  if !jsonTruthy p then some (none, false)
  else
    match p with
    | Json.obj kvs =>
      if (lookupKV kLike kvs).isSome && (lookupKV kWish kvs).isSome &&
          (lookupKV kWonder kvs).isSome then
        if badReflectVal ((lookupKV kLike kvs).getD Json.null) ||
            badReflectVal ((lookupKV kWish kvs).getD Json.null) ||
            badReflectVal ((lookupKV kWonder kvs).getD Json.null) then none
        else some (some (Json.obj kvs), true)
      else some (none, false)
    | Json.arr l =>
      if l.any (fun x => jbeq x (Json.str kLike)) &&
          l.any (fun x => jbeq x (Json.str kWish)) &&
          l.any (fun x => jbeq x (Json.str kWonder)) then none
      else some (none, false)
    | Json.str s =>
      if containsSub kLike s && containsSub kWish s && containsSub kWonder s then none
      else some (none, false)
    | _ => none

/-- `perform_strategic_reflection`: the pair is (returned artifact, whether
the reflection file was written); `none` models a raise. -/
def perform_strategic_reflection (fq ra dr : Json) (response : Option (List Char)) :
    Option (Option Json × Bool) :=
  if !reflectArgsOk fq ra dr then none
  else
    match response with
    | none => some (none, false)
    | some content =>
      match parse_json_from_llm_response content with
      | none => some (none, false)
      | some p => reflectStep p

/-! ## Session reset (app.py lines 31-141) -/

/-- `summary_stats` key. -/
def kSummary : List Char := "summary_stats".toList

/-- `high_risks` key. -/
def kHigh : List Char := "high_risks".toList

/-- `medium_risks` key. -/
def kMed : List Char := "medium_risks".toList

/-- `low_risks` key. -/
def kLow : List Char := "low_risks".toList

/-- `total_risks_assessed` key. -/
def kTotal : List Char := "total_risks_assessed".toList

/-- The six persisted artifact files, `none` for a missing or unparsable
file (load failures are caught and leave the slot empty). -/
structure AppFiles where
  extracted : Option Json
  pms : Option Json
  finalq : Option Json
  risk : Option Json
  derisk : Option Json
  reflect : Option Json

/-- The six session-state slots. -/
structure AppSession where
  extracted : Option Json
  pms : Option Json
  finalq : Option Json
  risk : Option Json
  derisk : Option Json
  reflect : Option Json

/-- The wrapped form a loaded risk list is converted to (app.py 76-84). -/
def wrapRiskFile (l : List Json) : Json :=
  Json.obj [(kRisks, Json.arr l),
    (kSummary, Json.obj [
      (kHigh, Json.num (Int.ofNat (countTier "High".toList l))),
      (kMed, Json.num (Int.ofNat (countTier "Medium".toList l))),
      (kLow, Json.num (Int.ofNat (countTier "Low".toList l))),
      (kTotal, Json.num (Int.ofNat l.length))])]

/-- Loading `risk_assessment.json`: a list is wrapped with summary stats
(raising on non-dict entries, caught as an empty slot); anything else is
kept as is. -/
def loadRiskFile : Option Json → Option Json
  | none => none
  | some (Json.arr l) => if l.all isObjB then some (wrapRiskFile l) else none
  | some v => some v

/-- The `elif os.path.exists(...) and slot is None` reload: a populated slot
is kept, an empty one is filled from the file when present. -/
def keepOrLoad (old loaded : Option Json) : Option Json :=
  match old with
  | some v => some v
  | none => loaded

/-- One reset-triggered rerun of app.py lines 38-116 with
`reset_phase = k` (`k = 1` also covers "all"): each slot whose phase list
contains `k` is cleared; other slots are kept, or reloaded from their file
when empty. -/
def applyReset (files : AppFiles) (st : AppSession) (k : Nat) : AppSession where
  extracted := if k ≤ 1 then none else keepOrLoad st.extracted files.extracted
  pms := if k ≤ 2 then none else keepOrLoad st.pms files.pms
  finalq := if k ≤ 3 then none else keepOrLoad st.finalq files.finalq
  risk := if k ≤ 4 then none else keepOrLoad st.risk (loadRiskFile files.risk)
  derisk := if k ≤ 5 then none else keepOrLoad st.derisk files.derisk
  reflect := if k ≤ 6 then none else keepOrLoad st.reflect files.reflect

/-! ## Spec-side definitions (written from spec.md, for comparison with the
source models) -/

/-- The spec's fixed risk-tier thresholds: High for 15-25, Medium for 8-14,
Low for 1-7 (undefined outside 1-25). -/
def specTier (s : Int) : List Char :=
  if 15 ≤ s ∧ s ≤ 25 then "High".toList
  else if 8 ≤ s ∧ s ≤ 14 then "Medium".toList
  else if 1 ≤ s ∧ s ≤ 7 then "Low".toList
  else "undefined".toList

/-- Spec invariant on one RiskAssessment record: numeric probability,
impact and score with `risk_score = probability * impact`, and a tier
string equal to the threshold-derived tier. -/
def specRiskRecordOk (r : Json) : Bool :=
  match jget r kProb, jget r kImp, jget r kScore, jget r kTier with
  | some (Json.num p), some (Json.num i), some (Json.num s), some (Json.str t) =>
    decide (s = p * i) && decide (t = specTier s)
  | _, _, _, _ => false

/-- Elementwise `optBeq` on lists of lookup results. -/
def optListBeq : List (Option Json) → List (Option Json) → Bool
  | [], [] => true
  | a :: as, b :: bs => optBeq a b && optListBeq as bs
  | _, _ => false

/-- Spec invariant on a Phase 3 result: the `question_number` fields are
exactly 1,2,3,4,5. -/
def specNumbered15 (l : List Json) : Bool :=
  optListBeq (l.map (fun r => jget r kQN))
    [some (Json.num 1), some (Json.num 2), some (Json.num 3),
     some (Json.num 4), some (Json.num 5)]

/-- Indices of the first `budget` records with `risk_score >= 15`, starting
at absolute index `idx`: the spec's de-risking selection rule. -/
def specSel (idx budget : Nat) : List Json → List Nat
  | [] => []
  | x :: rest =>
    if 15 ≤ (scoreKey x).getD 0 then
      if 0 < budget then idx :: specSel (idx + 1) (budget - 1) rest
      else specSel (idx + 1) budget rest
    else specSel (idx + 1) budget rest

/-- The spec's de-risking selection: records scoring at least 15, capped at
the first 3. -/
def specSelectedIdx (l : List Json) : List Nat := specSel 0 3 l

/-- All records carry pairwise distinct `question_number` values (under the
modelled Python equality). -/
def qnsDistinct : List Json → Bool
  | [] => true
  | r :: rest =>
    rest.all (fun r2 => !optBeq (jget r kQN) (jget r2 kQN)) && qnsDistinct rest

/-- No record already carries a `de_risking_plan` field. -/
def noPrePlans (l : List Json) : Bool := l.all (fun r => (jget r kDRP).isNone)

/-- The list is sorted by `risk_score` descending (adjacent comparison on
the Python sort key). -/
def sortedDescB : List Json → Bool
  | [] => true
  | [_] => true
  | a :: b :: rest =>
    decide ((scoreKey b).getD 0 ≤ (scoreKey a).getD 0) && sortedDescB (b :: rest)

/-- The response contents that Phase 6's acceptance test keeps: a truthy
parsed JSON object carrying all three reflection keys. -/
def reflectParsedObj (resp : Option (List Char)) : Option Json :=
  match resp with
  | none => none
  | some content =>
    match parse_json_from_llm_response content with
    | some (Json.obj kvs) =>
      if jsonTruthy (Json.obj kvs) && (lookupKV kLike kvs).isSome &&
          (lookupKV kWish kvs).isSome && (lookupKV kWonder kvs).isSome
      then some (Json.obj kvs) else none
    | _ => none

/-! ## Concrete inputs used by counterexamples and witnesses -/

/-- A well-formed consolidated question, number 1. -/
def cq1 : Json :=
  Json.obj [(kQN, Json.num 1), (kQT, Json.str "Q".toList), (kReasoning, Json.str "R".toList)]

/-- A Phase 4 response whose single record reports `risk_score = 7` with
`probability = 4`, `impact = 5` (the LLM ignored the product rule). -/
def c1content : List Char :=
  ("\x7b\"risk_assessments\": [\x7b\"question_number\": 1, \"question_text\": \"Q\", " ++
   "\"risk_category\": \"C\", \"probability\": 4, \"impact\": 5, \"risk_score\": 7, " ++
   "\"risk_tier\": \"Low\", \"justification\": \"J\"\x7d]\x7d").toList

/-- A Phase 3 response with two records numbered 9 (the LLM ignored the
numbering instruction). -/
def c2content : List Char :=
  "\x7b\"final_questions\": [\x7b\"question_number\": 9\x7d, \x7b\"question_number\": 9\x7d]\x7d".toList

/-- A bare JSON object text. -/
def c3bare : List Char := "\x7b\"a\": 1\x7d".toList

/-- The same object wrapped in an untagged markdown fence. -/
def c3plainFence : List Char := "```\n\x7b\"a\": 1\x7d\n```".toList

/-- The same object followed by trailing prose. -/
def c3trailing : List Char := "\x7b\"a\": 1\x7d Thanks".toList

/-- One model whose response had empty content: ten empty-content
sentinels. -/
def c4pmsEmptyContent : List (List Char × List (List Char)) :=
  [("m".toList, List.replicate 10 failContentSentinel)]

/-- One model carrying the failed-call sentinel and a padding sentinel. -/
def c4pmsOther : List (List Char × List (List Char)) :=
  [("m".toList, [failModelSentinel "m".toList, fewerSentinel 1])]

/-- A minimal consolidated question for placeholder-path runs. -/
def c5q : Json := Json.obj [(kQN, Json.num 1), (kQT, Json.str "Q".toList)]

/-- The placeholder record Phase 4 builds for `c5q`. -/
def c5placeholder : Json :=
  Json.obj [(kQN, Json.num 1), (kQT, Json.str "Q".toList),
    (kRC, Json.str "[Assessment Error]".toList),
    (kProb, Json.num 0), (kImp, Json.num 0), (kScore, Json.num 0),
    (kTier, Json.str "Error".toList),
    (kJust, Json.str "Failed to get or parse assessment from LLM.".toList)]

/-- The Phase 4 output on `[c5q]` with no gateway response. -/
def c5out : RiskOutput :=
  { risks := [c5placeholder], high_risks := 0, medium_risks := 0, low_risks := 0,
    total_risks_assessed := 1 }

/-- Risk record: question 1, score 20. -/
def c6a : Json := Json.obj [(kQN, Json.num 1), (kScore, Json.num 20)]

/-- Risk record: question 1 again (duplicate number), score 3. -/
def c6b : Json := Json.obj [(kQN, Json.num 1), (kScore, Json.num 3)]

/-- Risk record: question 2, score 2, already carrying a plan field. -/
def c6c : Json :=
  Json.obj [(kQN, Json.num 2), (kScore, Json.num 2), (kDRP, Json.str "old plan".toList)]

/-- A score-descending risk list with a duplicated question number and a
pre-existing plan field. -/
def c6cxInput : List Json := [c6a, c6b, c6c]

/-- Oracle for the two strategy calls the loop issues on `c6cxInput`. -/
def c6oracle : List (Option (List Char)) := [none, none]

/-- Single high-priority record for the witness run. -/
def c6wInput : List Json := [c6a]

/-- The plan attached on a failed strategy call. -/
def c6noRespPlan : Json :=
  Json.obj [(kErr, Json.str "No LLM response for strategies.".toList)]

/-- Files on disk: only the Phase 1 artifact file exists. -/
def c7files : AppFiles :=
  { extracted := some (Json.str "doc".toList), pms := none, finalq := none,
    risk := none, derisk := none, reflect := none }

/-- Session state: Phase 1 slot empty, later slots populated. -/
def c7session : AppSession :=
  { extracted := none, pms := some (Json.num 2), finalq := some (Json.num 3),
    risk := some (Json.num 4), derisk := some (Json.num 5), reflect := some (Json.num 6) }

/-- A Phase 6 response whose parsed object has all three keys but a truthy
numeric value under the first one. -/
def c8bad : List Char :=
  ("\x7b\"i_like_reflection\": 1, \"i_wish_reflection\": [], " ++
   "\"i_wonder_reflection\": []\x7d").toList

/-- A well-formed Phase 6 response. -/
def c8good : List Char :=
  ("\x7b\"i_like_reflection\": [\"a\"], \"i_wish_reflection\": [\"b\"], " ++
   "\"i_wonder_reflection\": [\"c\"]\x7d").toList

/-- The object `c8good` parses to. -/
def c8goodParsed : Json :=
  Json.obj [(kLike, Json.arr [Json.str "a".toList]),
            (kWish, Json.arr [Json.str "b".toList]),
            (kWonder, Json.arr [Json.str "c".toList])]

/-! ## General helper lemmas -/

/-- A pattern is a prefix of itself followed by anything. -/
theorem startsWithL_append_self : ∀ (p t : List Char), startsWithL p (p ++ t) = true
  | [], _ => rfl
  | c :: ps, t => by simp [startsWithL, startsWithL_append_self ps t]

/-- `getLast?` produces a member of the list. -/
theorem getLastMem : ∀ (l : List Char) (h : Char), l.getLast? = some h → h ∈ l
  | [], _, hh => by simp at hh
  | [a], _, hh => by
    simp [List.getLast?] at hh
    simp [hh]
  | a :: b :: t, h, hh => by
    rw [List.getLast?_cons_cons] at hh
    exact List.mem_cons_of_mem _ (getLastMem (b :: t) h hh)

/-- `omap` preserves length. -/
theorem omap_length {α β : Type} (f : α → Option β) :
    ∀ (l : List α) (l' : List β), omap f l = some l' → l'.length = l.length
  | [], l', h => by simp [omap] at h; simp [← h]
  | a :: as, l', h => by
    simp only [omap] at h
    cases hfa : f a with
    | none => rw [hfa] at h; cases h
    | some b =>
      rw [hfa] at h
      cases hrest : omap f as with
      | none => rw [hrest] at h; cases h
      | some bs =>
        rw [hrest] at h
        cases h
        simp [omap_length f as bs hrest]

/-- Every image element under `omap` comes from a source element. -/
theorem omap_mem {α β : Type} (f : α → Option β) :
    ∀ (l : List α) (l' : List β), omap f l = some l' →
      ∀ b ∈ l', ∃ a ∈ l, f a = some b
  | [], l', h => by
    simp [omap] at h
    simp [h]
  | a :: as, l', h => by
    simp only [omap] at h
    cases hfa : f a with
    | none => rw [hfa] at h; cases h
    | some b0 =>
      rw [hfa] at h
      cases hrest : omap f as with
      | none => rw [hrest] at h; cases h
      | some bs =>
        rw [hrest] at h
        cases h
        intro b hb
        rcases List.mem_cons.mp hb with rfl | hbs
        · exact ⟨a, List.mem_cons_self _ _, hfa⟩
        · obtain ⟨a', ha', hfa'⟩ := omap_mem f as bs hrest b hbs
          exact ⟨a', List.mem_cons_of_mem _ ha', hfa'⟩

/-- Looking up a key after appending a differently-keyed pair is unchanged. -/
theorem lookupKV_append_single (k k' : List Char) (v : Json) (hne : k ≠ k') :
    ∀ kvs : List (List Char × Json),
      lookupKV k (kvs ++ [(k', v)]) = lookupKV k kvs
  | [] => by simp [lookupKV, Ne.symm hne]
  | (k0, v0) :: rest => by
    by_cases h0 : k0 = k
    · simp [lookupKV, h0]
    · simp [lookupKV, h0, lookupKV_append_single k k' v hne rest]

/-- Inserting a key makes it look up to the inserted value. -/
theorem lookupKV_insertAssoc_self (k : List Char) (v : Json) :
    ∀ kvs : List (List Char × Json), lookupKV k (insertAssoc k v kvs) = some v
  | [] => by simp [insertAssoc, lookupKV]
  | (k0, v0) :: rest => by
    by_cases h0 : k0 = k
    · simp [insertAssoc, h0, lookupKV]
    · simp [insertAssoc, h0, lookupKV, lookupKV_insertAssoc_self k v rest]

/-- Setting a key on an object makes it read back. -/
theorem jget_setKeyJ_self (j : Json) (k : List Char) (v : Json) (hobj : isObjB j = true) :
    jget (setKeyJ j k v) k = some v := by
  cases j <;> simp [isObjB] at hobj
  simp [setKeyJ, jget, lookupKV_insertAssoc_self]

/-- Membership in a stable descending insertion. -/
theorem mem_insertScoreDesc (x : Json × Int) :
    ∀ (l : List (Json × Int)) (y : Json × Int), y ∈ insertScoreDesc x l → y = x ∨ y ∈ l
  | [], y, h => by
    simp [insertScoreDesc] at h
    exact Or.inl h
  | z :: zs, y, h => by
    simp only [insertScoreDesc] at h
    by_cases hz : z.2 ≤ x.2
    · rw [if_pos hz] at h
      rcases List.mem_cons.mp h with rfl | h2
      · exact Or.inl rfl
      · exact Or.inr h2
    · rw [if_neg hz] at h
      rcases List.mem_cons.mp h with rfl | h2
      · exact Or.inr (List.mem_cons_self _ _)
      · rcases mem_insertScoreDesc x zs y h2 with h3 | h3
        · exact Or.inl h3
        · exact Or.inr (List.mem_cons_of_mem _ h3)

/-- Membership in the stable descending sort. -/
theorem mem_sortScoreDesc :
    ∀ (l : List (Json × Int)) (y : Json × Int), y ∈ sortScoreDesc l → y ∈ l
  | [], y, h => by simp [sortScoreDesc] at h
  | x :: xs, y, h => by
    simp only [sortScoreDesc] at h
    rcases mem_insertScoreDesc x (sortScoreDesc xs) y h with rfl | h2
    · exact List.mem_cons_self _ _
    · exact List.mem_cons_of_mem _ (mem_sortScoreDesc xs y h2)

/-- Sorting a constant-key list is the identity (stability on ties). -/
theorem sortScoreDesc_const :
    ∀ l : List (Json × Int), (∀ x ∈ l, x.2 = 0) → sortScoreDesc l = l
  | [], _ => rfl
  | x :: xs, h => by
    have hx : x.2 = 0 := h x (List.mem_cons_self _ _)
    have hxs : sortScoreDesc xs = xs :=
      sortScoreDesc_const xs (fun y hy => h y (List.mem_cons_of_mem _ hy))
    simp only [sortScoreDesc, hxs]
    cases xs with
    | nil => rfl
    | cons z zs =>
      have hz : z.2 = 0 := h z (List.mem_cons_of_mem _ (List.mem_cons_self _ _))
      simp [insertScoreDesc, hz, hx]

/-- Members of every `sortRisks` output are members of the input. -/
theorem sortRisks_mem (l sorted : List Json) (h : sortRisks l = some sorted) :
    ∀ x ∈ sorted, x ∈ l := by
  simp only [sortRisks] at h
  cases hk : omap (fun r => (scoreKey r).map (fun s => (r, s))) l with
  | none => rw [hk] at h; cases h
  | some keyed =>
    rw [hk] at h
    cases h
    intro x hx
    obtain ⟨pair, hpair, hfst⟩ := List.mem_map.mp hx
    have hmem := mem_sortScoreDesc keyed pair hpair
    obtain ⟨a, ha, hfa⟩ := omap_mem _ l keyed hk pair hmem
    cases hsk : scoreKey a with
    | none => rw [hsk] at hfa; cases hfa
    | some s =>
      rw [hsk] at hfa
      simp only [Option.map_some'] at hfa
      cases hfa
      rw [← hfst]
      exact ha

/-! ## Lemmas about the fence extraction (for C3) -/

/-- The newline is regex whitespace. -/
theorem isWsRe_nl : isWsRe '\n' = true := by decide

/-- The backtick is not regex whitespace. -/
theorem isWsRe_btk : isWsRe btk = false := by decide

/-- A backtick-free string never hosts a fence opener, so the regex search
fails on it. -/
theorem searchFence_eq_none :
    ∀ s : List Char, (∀ c ∈ s, c ≠ btk) → searchFence s = none
  | [], _ => rfl
  | c :: rest, hb => by
    have hc : c ≠ btk := hb c (List.mem_cons_self _ _)
    have hb' : ∀ a ∈ rest, a ≠ btk := fun a ha => hb a (List.mem_cons_of_mem _ ha)
    simp [searchFence, startsWithL, fenceOpenL, Ne.symm hc,
      searchFence_eq_none rest hb']

/-- A backtick-free block that still contains a non-whitespace character
cannot have the closing fence begin inside or right after it. -/
theorem ticks_not_prefix :
    ∀ (u tail : List Char), (∀ c ∈ u, c ≠ btk) →
      (∃ x ∈ u, isWsRe x = false) →
      startsWithL ticksL ((u ++ tail).dropWhile isWsRe) = false
  | [], _, _, hx => by simp at hx
  | c :: u', tail, hb, hx => by
    by_cases hws : isWsRe c
    · have hx' : ∃ x ∈ u', isWsRe x = false := by
        obtain ⟨x, hxmem, hxws⟩ := hx
        rcases List.mem_cons.mp hxmem with rfl | hm
        · rw [hws] at hxws; cases hxws
        · exact ⟨x, hm, hxws⟩
      have hb' : ∀ a ∈ u', a ≠ btk := fun a ha => hb a (List.mem_cons_of_mem _ ha)
      simpa [List.cons_append, List.dropWhile_cons, hws] using
        ticks_not_prefix u' tail hb' hx'
    · have hc : c ≠ btk := hb c (List.mem_cons_self _ _)
      simp [List.cons_append, List.dropWhile_cons, hws, startsWithL, ticksL, Ne.symm hc]

/-- The lazy group of the fence regex stops exactly at the end of a
backtick-free block that does not end in whitespace. -/
theorem findGroup_closes :
    ∀ (j prose : List Char), (∀ c ∈ j, c ≠ btk) →
      (j = [] ∨ ∃ h, j.getLast? = some h ∧ isWsRe h = false) →
      findGroup (j ++ '\n' :: (ticksL ++ prose)) = some j
  | [], prose, _, _ => by
    simp [findGroup, List.dropWhile_cons, isWsRe_nl, isWsRe_btk, ticksL, startsWithL]
  | c :: j', prose, hb, hl => by
    have hc : c ≠ btk := hb c (List.mem_cons_self _ _)
    have hb' : ∀ a ∈ j', a ≠ btk := fun a ha => hb a (List.mem_cons_of_mem _ ha)
    have hlast : ∃ h, (c :: j').getLast? = some h ∧ isWsRe h = false := by
      rcases hl with h | h
      · cases h
      · exact h
    obtain ⟨h, hh, hhws⟩ := hlast
    have hcond : startsWithL ticksL (((c :: j') ++ '\n' :: (ticksL ++ prose)).dropWhile isWsRe)
        = false := by
      refine ticks_not_prefix (c :: j') ('\n' :: (ticksL ++ prose)) hb ⟨h, ?_, hhws⟩
      exact getLastMem _ _ hh
    have hl' : j' = [] ∨ ∃ h, j'.getLast? = some h ∧ isWsRe h = false := by
      cases j' with
      | nil => exact Or.inl rfl
      | cons d t =>
        right
        rw [List.getLast?_cons_cons] at hh
        exact ⟨h, hh, hhws⟩
    have ih := findGroup_closes j' prose hb' hl'
    simp only [List.cons_append] at hcond
    simp [findGroup, hcond, ih]

/-- On a fenced, backtick-free, whitespace-trimmed block the regex search
returns exactly the block, whatever follows the closing fence. -/
theorem searchFence_fenced (j prose : List Char) (hne : j ≠ [])
    (hb : ∀ c ∈ j, c ≠ btk)
    (hhead : ∀ h, j.head? = some h → isWsRe h = false)
    (hlast : ∀ h, j.getLast? = some h → isWsRe h = false) :
    searchFence (fenceOpenL ++ '\n' :: (j ++ '\n' :: (ticksL ++ prose))) = some j := by
  obtain ⟨c, j', rfl⟩ := List.exists_cons_of_ne_nil hne
  have hchead : isWsRe c = false := hhead c rfl
  have hfind := findGroup_closes (c :: j') prose hb
    (Or.inr (by
      cases hg : (c :: j').getLast? with
      | none => simp at hg
      | some h => exact ⟨h, rfl, hlast h hg⟩))
  simp only [List.cons_append] at hfind
  simp [fenceOpenL, searchFence, startsWithL, List.dropWhile_cons, isWsRe_nl, hchead,
    hfind]

/-- `parse_json_from_llm_response` on a fenced block hands the block to the
JSON decoder. -/
theorem parseLLM_fenced (j prose : List Char) (hne : j ≠ [])
    (hb : ∀ c ∈ j, c ≠ btk)
    (hhead : ∀ h, j.head? = some h → isWsRe h = false)
    (hlast : ∀ h, j.getLast? = some h → isWsRe h = false) :
    parse_json_from_llm_response (fenceOpenL ++ '\n' :: (j ++ '\n' :: (ticksL ++ prose)))
      = jsonParse j := by
  have hs := searchFence_fenced j prose hne hb hhead hlast
  simp only [fenceOpenL, List.cons_append, List.nil_append] at hs
  simp [parse_json_from_llm_response, fenceOpenL, hs]

/-- On backtick-free nonempty content the parser is the JSON decoder. -/
theorem parseLLM_plain (content : List Char) (hne : content ≠ [])
    (hb : ∀ c ∈ content, c ≠ btk) :
    parse_json_from_llm_response content = jsonParse content := by
  have hs := searchFence_eq_none content hb
  simp [parse_json_from_llm_response, hs, hne]

/-! ## Claim C3 -/

/-- C3 (amended): for a JSON text `j` that is nonempty, backtick-free and
whitespace-trimmed, wrapping it in a ```json-tagged fence — optionally
followed by trailing prose after the closing fence — parses identically to
parsing `j` alone; trailing prose is tolerated only in that fenced form
(the counterexample shows an untagged fence and a bare object followed by
prose both fail). -/
theorem C3_parser_fence_amended (j prose : List Char) (hne : j ≠ [])
    (hb : ∀ c ∈ j, c ≠ btk)
    (hhead : j.head?.all (fun h => !isWsRe h) = true)
    (hlast : j.getLast?.all (fun h => !isWsRe h) = true) :
    parse_json_from_llm_response (fenceOpenL ++ '\n' :: (j ++ '\n' :: (ticksL ++ prose)))
      = parse_json_from_llm_response j := by
  have hhead' : ∀ h, j.head? = some h → isWsRe h = false := by
    intro h hh
    rw [hh] at hhead
    simpa using hhead
  have hlast' : ∀ h, j.getLast? = some h → isWsRe h = false := by
    intro h hh
    rw [hh] at hlast
    simpa using hlast
  rw [parseLLM_fenced j prose hne hb hhead' hlast', parseLLM_plain j hne hb]

/-- C3 (counterexample): the bare object `{"a": 1}` parses, but the same
object wrapped in an untagged ``` fence returns a parse failure, and so
does the same object followed by trailing prose — refuting both halves of
the claim as stated. -/
theorem C3_parser_fence_cx :
    parse_json_from_llm_response c3bare = some (Json.obj [("a".toList, Json.num 1)]) ∧
    parse_json_from_llm_response c3plainFence = none ∧
    parse_json_from_llm_response c3trailing = none :=
  ⟨by decide, by decide, by decide⟩

/-- C3 (witness): the amended equivalence at the concrete object
`{"a": 1}` with trailing prose after the fence. -/
theorem C3_parser_fence_witness :
    parse_json_from_llm_response (fenceOpenL ++ '\n' :: (c3bare ++ '\n' :: (ticksL ++ " ok".toList)))
      = parse_json_from_llm_response c3bare :=
  C3_parser_fence_amended c3bare " ok".toList (by decide) (by decide) (by decide) (by decide)

/-! ## Claim C4 -/

/-- C4 (code bug): the Phase 3 flattening excludes the failed-call sentinel
and the padding sentinel, but the empty-content sentinel
`"[Model failed to provide content]"` matches neither filtered prefix and
flows into the consolidation prompt: a model whose response had empty
content contributes all ten sentinel entries. -/
theorem C4_flatten_sentinel_bug :
    flattenQuestions c4pmsEmptyContent = List.replicate 10 failContentSentinel ∧
    flattenQuestions c4pmsOther = [] :=
  ⟨by decide, by decide⟩

/-! ## Claim C9 -/

/-- Phase 2 extraction always yields exactly ten entries. -/
theorem extract_length (content : List Char) :
    (extract_questions_from_pms_response content).length = 10 := by
  unfold extract_questions_from_pms_response
  split
  · simp
  · simp only []
    split
    · next hlt =>
      simp only [List.length_append, List.length_map, List.length_drop, List.length_range]
      omega
    · next hge =>
      simp only [List.length_take]
      omega

/-- Membership after a dict insertion: the value is the inserted one or was
already present. -/
theorem mem_insertAssoc {β : Type} (k : List Char) (v : β) :
    ∀ (l : List (List Char × β)) (kv : List Char × β),
      kv ∈ insertAssoc k v l → kv.2 = v ∨ kv ∈ l
  | [], kv, h => by
    simp [insertAssoc] at h
    simp [h]
  | (k0, v0) :: rest, kv, h => by
    simp only [insertAssoc] at h
    by_cases h0 : k0 = k
    · rw [if_pos h0] at h
      rcases List.mem_cons.mp h with rfl | h2
      · exact Or.inl rfl
      · exact Or.inr (List.mem_cons_of_mem _ h2)
    · rw [if_neg h0] at h
      rcases List.mem_cons.mp h with rfl | h2
      · exact Or.inr (List.mem_cons_self _ _)
      · rcases mem_insertAssoc k v rest kv h2 with h3 | h3
        · exact Or.inl h3
        · exact Or.inr (List.mem_cons_of_mem _ h3)

/-- A property of all inserted values survives the dict-building fold. -/
theorem foldl_insertAssoc_values {β : Type} (P : β → Prop) :
    ∀ (pairs acc : List (List Char × β)),
      (∀ kv ∈ acc, P kv.2) → (∀ kv ∈ pairs, P kv.2) →
      ∀ kv ∈ pairs.foldl (fun a kv => insertAssoc kv.1 kv.2 a) acc, P kv.2
  | [], acc, hacc, _, kv, h => hacc kv (by simpa using h)
  | p :: ps, acc, hacc, hps, kv, h => by
    simp only [List.foldl_cons] at h
    refine foldl_insertAssoc_values P ps (insertAssoc p.1 p.2 acc) ?_ ?_ kv h
    · intro kv2 h2
      rcases mem_insertAssoc p.1 p.2 acc kv2 h2 with h3 | h3
      · rw [h3]; exact hps p (List.mem_cons_self _ _)
      · exact hacc kv2 h3
    · intro kv2 h2
      exact hps kv2 (List.mem_cons_of_mem _ h2)

/-- C9: Phase 2's per-model extraction always produces exactly ten question
strings (padding with numbered placeholder sentinels, truncating excess);
a failed gateway call yields ten distinguishable failure sentinels, empty
content yields ten empty-content sentinels, and consequently every model
key in the `generate_pms_questions` result maps to exactly ten entries. -/
theorem C9_fixed_arity :
    (∀ content, (extract_questions_from_pms_response content).length = 10) ∧
    (∀ m, modelQuestions m none = List.replicate 10 (failModelSentinel m)) ∧
    (extract_questions_from_pms_response [] = List.replicate 10 failContentSentinel) ∧
    (∀ models oracle kv, kv ∈ generate_pms_questions models oracle → kv.2.length = 10) := by
  refine ⟨extract_length, fun m => rfl, rfl, ?_⟩
  intro models oracle kv hkv
  unfold generate_pms_questions at hkv
  refine foldl_insertAssoc_values (fun v => v.length = 10) _ [] (by simp) ?_ kv hkv
  intro kv2 h2
  obtain ⟨p, hp, rfl⟩ := List.mem_map.mp h2
  cases hor : oracle.getD p.1 none with
  | none => simp [modelQuestions]
  | some content => simp [modelQuestions, extract_length]

/-- C9 (witness): a failed call on a one-model run contributes a key with
exactly ten entries. -/
theorem C9_fixed_arity_witness :
    (("m".toList, List.replicate 10 (failModelSentinel "m".toList)) :
      List Char × List (List Char)).2.length = 10 :=
  C9_fixed_arity.2.2.2 ["m".toList] [] _ (by decide)

/-! ## Claim C2 -/

/-- C2 (amended): every returning run of `consolidate_questions` yields
exactly 5 records, and on the gateway-failure placeholder path they are
numbered 1..5 contiguously; but records parsed from the LLM response keep
whatever `question_number` values the model produced — the numbering is not
validated or repaired (counterexample: five records numbered 9,9,3,4,5). -/
theorem C2_consolidate_amended :
    ∀ (pms : List (List Char × List (List Char))) (response : Option (List Char))
      (out : List Json),
      consolidate_questions pms response = some out →
      out.length = 5 ∧ (response = none → specNumbered15 out = true) := by
  have tail_length : ∀ (l0 out : List Json), consolidateTail l0 = some out →
      out.length = 5 := by
    intro l0 out h
    unfold consolidateTail at h
    generalize hg : (if l0.length < 5 then
        l0 ++ ((List.range 5).drop l0.length).map (fun i => missingQuestionRecord (i + 1))
      else l0.take 5) = l1 at h
    simp only [] at h
    split at h
    · cases h
      rw [← hg]
      split
      · next hlt =>
        simp only [List.length_append, List.length_map, List.length_drop, List.length_range]
        omega
      · next hge =>
        simp only [List.length_take]
        omega
    · cases h
  intro pms response out h
  cases response with
  | none =>
    rw [show consolidate_questions pms none = some noResponsePlaceholders from rfl] at h
    cases h
    exact ⟨by decide, fun _ => by decide⟩
  | some content =>
    cases hE : extractListKey kFQ (parse_json_from_llm_response content) with
    | none =>
      have hv : consolidate_questions pms (some content) = none := by
        simp only [consolidate_questions, hE]
      rw [hv] at h
      cases h
    | some sel =>
      cases sel with
      | none =>
        have hv : consolidate_questions pms (some content) =
            consolidateTail parseErrorPlaceholders := by
          simp only [consolidate_questions, hE]
        rw [hv, show consolidateTail parseErrorPlaceholders =
          some parseErrorPlaceholders from rfl] at h
        cases h
        exact ⟨by decide, fun hc => by cases hc⟩
      | some l =>
        have hv : consolidate_questions pms (some content) = consolidateTail l := by
          simp only [consolidate_questions, hE]
        rw [hv] at h
        exact ⟨tail_length l out h, fun hc => by cases hc⟩

/-- C2 (counterexample): a parsed response with two records numbered 9 is
padded to five records whose numbers are 9,9,3,4,5 — five records, but not
numbered 1..5. -/
theorem C2_consolidate_cx :
    (consolidate_questions [] (some c2content)).map List.length = some 5 ∧
    (consolidate_questions [] (some c2content)).map specNumbered15 = some false :=
  ⟨by decide, by decide⟩

/-- C2 (witness): the amended statement on the gateway-failure path. -/
theorem C2_consolidate_witness : noResponsePlaceholders.length = 5 :=
  (C2_consolidate_amended [] none noResponsePlaceholders (by decide)).1

/-! ## Claim C7 -/

/-- A populated slot survives the keep-or-load step. -/
theorem keepOrLoad_of_ne (old loaded : Option Json) (h : old ≠ none) :
    keepOrLoad old loaded = old := by
  cases old with
  | none => cases h rfl
  | some v => rfl

/-- C7 (amended): resetting at phase `k` clears the session slots of phases
`k..6`; an earlier slot that holds a value is left unchanged, but an empty
earlier slot is repopulated from its persisted file (the risk slot through
the list-wrapping loader) — so "unchanged" holds only for populated
slots. -/
theorem C7_reset_amended (files : AppFiles) (st : AppSession) (k : Nat)
    (hk1 : 1 ≤ k) (hk6 : k ≤ 6) :
    (k ≤ 1 → (applyReset files st k).extracted = none) ∧
    (k ≤ 2 → (applyReset files st k).pms = none) ∧
    (k ≤ 3 → (applyReset files st k).finalq = none) ∧
    (k ≤ 4 → (applyReset files st k).risk = none) ∧
    (k ≤ 5 → (applyReset files st k).derisk = none) ∧
    ((applyReset files st k).reflect = none) ∧
    (2 ≤ k → st.extracted ≠ none → (applyReset files st k).extracted = st.extracted) ∧
    (3 ≤ k → st.pms ≠ none → (applyReset files st k).pms = st.pms) ∧
    (4 ≤ k → st.finalq ≠ none → (applyReset files st k).finalq = st.finalq) ∧
    (5 ≤ k → st.risk ≠ none → (applyReset files st k).risk = st.risk) ∧
    (6 ≤ k → st.derisk ≠ none → (applyReset files st k).derisk = st.derisk) ∧
    (2 ≤ k → st.extracted = none → (applyReset files st k).extracted = files.extracted) ∧
    (3 ≤ k → st.pms = none → (applyReset files st k).pms = files.pms) ∧
    (4 ≤ k → st.finalq = none → (applyReset files st k).finalq = files.finalq) ∧
    (5 ≤ k → st.risk = none → (applyReset files st k).risk = loadRiskFile files.risk) ∧
    (6 ≤ k → st.derisk = none → (applyReset files st k).derisk = files.derisk) := by
  refine ⟨?_, ?_, ?_, ?_, ?_, ?_, ?_, ?_, ?_, ?_, ?_, ?_, ?_, ?_, ?_, ?_⟩
  · intro h; simp [applyReset, h]
  · intro h; simp [applyReset, h]
  · intro h; simp [applyReset, h]
  · intro h; simp [applyReset, h]
  · intro h; simp [applyReset, h]
  · simp [applyReset, hk6]
  · intro h hne
    have : ¬ k ≤ 1 := by omega
    simp [applyReset, this, keepOrLoad_of_ne _ _ hne]
  · intro h hne
    have : ¬ k ≤ 2 := by omega
    simp [applyReset, this, keepOrLoad_of_ne _ _ hne]
  · intro h hne
    have : ¬ k ≤ 3 := by omega
    simp [applyReset, this, keepOrLoad_of_ne _ _ hne]
  · intro h hne
    have : ¬ k ≤ 4 := by omega
    simp [applyReset, this, keepOrLoad_of_ne _ _ hne]
  · intro h hne
    have : ¬ k ≤ 5 := by omega
    simp [applyReset, this, keepOrLoad_of_ne _ _ hne]
  · intro h hemp
    have : ¬ k ≤ 1 := by omega
    simp [applyReset, this, hemp, keepOrLoad]
  · intro h hemp
    have : ¬ k ≤ 2 := by omega
    simp [applyReset, this, hemp, keepOrLoad]
  · intro h hemp
    have : ¬ k ≤ 3 := by omega
    simp [applyReset, this, hemp, keepOrLoad]
  · intro h hemp
    have : ¬ k ≤ 4 := by omega
    simp [applyReset, this, hemp, keepOrLoad]
  · intro h hemp
    have : ¬ k ≤ 5 := by omega
    simp [applyReset, this, hemp, keepOrLoad]

/-- C7 (counterexample): with the Phase 1 file on disk and an empty Phase 1
session slot, resetting at phase 4 repopulates the Phase 1 slot from disk —
the phase-1 artifact does not stay unchanged — while the phase 2/3 slots
are kept and phases 4..6 are cleared. -/
theorem C7_reset_cx :
    c7session.extracted = none ∧
    (applyReset c7files c7session 4).extracted = some (Json.str "doc".toList) ∧
    (applyReset c7files c7session 4).pms = c7session.pms ∧
    (applyReset c7files c7session 4).finalq = c7session.finalq ∧
    (applyReset c7files c7session 4).risk = none ∧
    (applyReset c7files c7session 4).derisk = none ∧
    (applyReset c7files c7session 4).reflect = none :=
  ⟨rfl, rfl, rfl, rfl, rfl, rfl, rfl⟩

/-- C7 (witness): the amended cascade at a concrete reset. -/
theorem C7_reset_witness :
    (applyReset c7files c7session 4).reflect = none :=
  (C7_reset_amended c7files c7session 4 (by decide) (by decide)).2.2.2.2.2.1

/-! ## Phase 4 inversion and preservation lemmas -/

/-- `isEmpty` through `length`. -/
theorem isEmpty_eq_decide {α : Type} (l : List α) : l.isEmpty = decide (l.length = 0) := by
  cases l <;> simp

/-- Decompose a successful `riskFinish`. -/
theorem riskFinish_inv (cl : List Json) (out : RiskOutput) (h : riskFinish cl = some out) :
    sortRisks cl = some out.risks ∧
    out.high_risks = countTier "High".toList out.risks ∧
    out.medium_risks = countTier "Medium".toList out.risks ∧
    out.low_risks = countTier "Low".toList out.risks ∧
    out.total_risks_assessed = out.risks.length := by
  unfold riskFinish at h
  cases hs : sortRisks cl with
  | none => rw [hs] at h; cases h
  | some sorted =>
    rw [hs] at h
    cases h
    exact ⟨rfl, rfl, rfl, rfl, rfl⟩

/-- Decompose a successful `perform_risk_assessment` into its final list's
provenance (all-or-nothing placeholders versus the whole enriched parse)
and the stats construction. -/
theorem perform_risk_assessment_inv (questions : List Json) (response : Option (List Char))
    (out : RiskOutput) (h : perform_risk_assessment questions response = some out) :
    (∃ cl, sortRisks cl = some out.risks ∧
      ((riskMismatch questions response = true ∧ omap placeholderRisk questions = some cl) ∨
       (riskMismatch questions response = false ∧
        ∃ l, parsedRiskList response = some (some l) ∧
          omap (enrichItem questions) l = some cl))) ∧
    out.high_risks = countTier "High".toList out.risks ∧
    out.medium_risks = countTier "Medium".toList out.risks ∧
    out.low_risks = countTier "Low".toList out.risks ∧
    out.total_risks_assessed = out.risks.length := by
  unfold perform_risk_assessment at h
  cases hP : parsedRiskList response with
  | none => rw [hP] at h; cases h
  | some pl =>
    rw [hP] at h
    cases pl with
    | none =>
      have hmm : riskMismatch questions response = true := by
        unfold riskMismatch
        rw [hP]
      have h' : (match omap placeholderRisk questions with
                 | none => none
                 | some cl => riskFinish cl) = some out := h
      cases hpl : omap placeholderRisk questions with
      | none => rw [hpl] at h'; cases h'
      | some cl =>
        rw [hpl] at h'
        obtain ⟨hs, h1, h2, h3, h4⟩ := riskFinish_inv cl out h'
        exact ⟨⟨cl, hs, Or.inl ⟨hmm, rfl⟩⟩, h1, h2, h3, h4⟩
    | some l =>
      have hM : riskMismatch questions response =
          (l.isEmpty || l.length != questions.length) := by
        unfold riskMismatch
        rw [hP]
      have h' : (match omap (enrichItem questions) l with
                 | none => none
                 | some lst =>
                   match (if lst.isEmpty || lst.length != questions.length
                          then omap placeholderRisk questions else some lst) with
                   | none => none
                   | some cl => riskFinish cl) = some out := h
      cases hb : omap (enrichItem questions) l with
      | none => rw [hb] at h'; cases h'
      | some lst =>
        rw [hb] at h'
        have h2 : (match (if lst.isEmpty || lst.length != questions.length
                          then omap placeholderRisk questions else some lst) with
                   | none => none
                   | some cl => riskFinish cl) = some out := h'
        have hlen := omap_length _ l lst hb
        cases hcond : lst.isEmpty || lst.length != questions.length with
        | true =>
          rw [hcond] at h2
          have h3 : (match omap placeholderRisk questions with
                     | none => none
                     | some cl => riskFinish cl) = some out := h2
          cases hpl : omap placeholderRisk questions with
          | none => rw [hpl] at h3; cases h3
          | some cl =>
            rw [hpl] at h3
            obtain ⟨hs, h1v, h2v, h3v, h4v⟩ := riskFinish_inv cl out h3
            have hmm : riskMismatch questions response = true := by
              rw [hM]
              rw [isEmpty_eq_decide, hlen] at hcond
              rw [isEmpty_eq_decide]
              exact hcond
            exact ⟨⟨cl, hs, Or.inl ⟨hmm, rfl⟩⟩, h1v, h2v, h3v, h4v⟩
        | false =>
          rw [hcond] at h2
          have h3 : riskFinish lst = some out := h2
          obtain ⟨hs, h1v, h2v, h3v, h4v⟩ := riskFinish_inv lst out h3
          have hmm : riskMismatch questions response = false := by
            rw [hM]
            rw [isEmpty_eq_decide, hlen] at hcond
            rw [isEmpty_eq_decide]
            exact hcond
          exact ⟨⟨lst, hs, Or.inr ⟨hmm, l, rfl, hb⟩⟩, h1v, h2v, h3v, h4v⟩

/-- A placeholder record's sort key is 0. -/
theorem placeholderRisk_scoreKey (q r : Json) (h : placeholderRisk q = some r) :
    scoreKey r = some 0 := by
  cases q with
  | obj qkvs =>
    simp only [placeholderRisk] at h
    cases h
    rfl
  | null => cases h
  | bool b => cases h
  | num n => cases h
  | str s => cases h
  | arr l => cases h

/-- Pairing a zero-key list for the sort. -/
theorem omap_scoreKey_zero :
    ∀ cl : List Json, (∀ r ∈ cl, scoreKey r = some 0) →
      omap (fun r => (scoreKey r).map (fun s => (r, s))) cl
        = some (cl.map (fun r => (r, (0 : Int))))
  | [], _ => rfl
  | r :: rest, h => by
    have h1 := h r (List.mem_cons_self _ _)
    have h2 := omap_scoreKey_zero rest (fun x hx => h x (List.mem_cons_of_mem _ hx))
    simp [omap, h1, h2]

/-- Sorting the uniform placeholder list leaves it unchanged (stable sort
on all-equal keys). -/
theorem sortRisks_placeholders (questions cl : List Json)
    (h : omap placeholderRisk questions = some cl) : sortRisks cl = some cl := by
  have hsc : ∀ r ∈ cl, scoreKey r = some 0 := by
    intro r hr
    obtain ⟨q, _, hpq⟩ := omap_mem _ _ _ h r hr
    exact placeholderRisk_scoreKey q r hpq
  unfold sortRisks
  rw [omap_scoreKey_zero cl hsc]
  show some ((sortScoreDesc (cl.map (fun r => (r, (0 : Int))))).map Prod.fst) = some cl
  rw [sortScoreDesc_const _ (by
    intro x hx
    obtain ⟨r, _, rfl⟩ := List.mem_map.mp hx
    rfl)]
  rw [List.map_map, show (Prod.fst ∘ fun r : Json => (r, (0 : Int))) = id from rfl,
    List.map_id]

/-- Enrichment only ever appends a `question_text` field, so the spec's
score/tier invariant is unaffected by it. -/
theorem enrichItem_preserves_spec (questions : List Json) (r r' : Json)
    (h : enrichItem questions r = some r') :
    specRiskRecordOk r' = specRiskRecordOk r := by
  cases r with
  | obj kvs =>
    simp only [enrichItem] at h
    cases hf : findQuestion (lookupKV kQN kvs) questions with
    | none => rw [hf] at h; cases h
    | some oq =>
      rw [hf] at h
      cases oq with
      | none =>
        cases h
        rfl
      | some q =>
        simp only [] at h
        by_cases ht : jsonTruthy q
        · rw [ht] at h
          simp only [Bool.not_true, Bool.false_eq_true, if_false] at h
          by_cases hqt : (lookupKV kQT kvs).isSome
          · rw [if_pos hqt] at h
            cases h
            rfl
          · rw [if_neg hqt] at h
            cases h
            simp only [specRiskRecordOk, jget,
              lookupKV_append_single kProb kQT _ (by decide),
              lookupKV_append_single kImp kQT _ (by decide),
              lookupKV_append_single kScore kQT _ (by decide),
              lookupKV_append_single kTier kQT _ (by decide)]
        · rw [Bool.not_eq_true] at ht
          rw [ht] at h
          simp only [Bool.not_false, if_true] at h
          cases h
          rfl
  | null => cases h
  | bool b => cases h
  | num n => cases h
  | str s => cases h
  | arr l => cases h

/-! ## Claim C1 -/

/-- C1 (amended): `perform_risk_assessment` does not recompute or validate
`risk_score`/`risk_tier` — it returns the parsed records unchanged apart
from `question_text` enrichment and score-descending ordering.  Hence the
spec's invariant holds for the returned records exactly when the parsed LLM
content already satisfies it (and the prompt's thresholds do map the
worked example 4·5 = 20 to "High"); placeholder records instead carry
probability = impact = risk_score = 0 with risk_tier "Error". -/
theorem C1_risk_invariant_amended
    (questions : List Json) (response : Option (List Char)) (out : RiskOutput)
    (l : List Json)
    (hrun : perform_risk_assessment questions response = some out)
    (hparse : parsedRiskList response = some (some l))
    (hne : l ≠ []) (hcount : l.length = questions.length)
    (hok : l.all specRiskRecordOk = true) :
    out.risks.all specRiskRecordOk = true ∧ specTier (4 * 5) = "High".toList := by
  obtain ⟨⟨cl, hs, hor⟩, _, _, _, _⟩ :=
    perform_risk_assessment_inv questions response out hrun
  have hmm : riskMismatch questions response = false := by
    unfold riskMismatch
    rw [hparse]
    have h0 : l.isEmpty = false := by
      cases l with
      | nil => cases hne rfl
      | cons a t => rfl
    simp [h0, hcount]
  refine ⟨?_, by decide⟩
  rcases hor with ⟨hm, _⟩ | ⟨_, l2, hp2, hb⟩
  · rw [hmm] at hm; cases hm
  · rw [hparse] at hp2
    cases hp2
    rw [List.all_eq_true]
    intro x hx
    have hxcl := sortRisks_mem cl out.risks hs x hx
    obtain ⟨a, ha, hfa⟩ := omap_mem _ _ _ hb x hxcl
    rw [enrichItem_preserves_spec questions a x hfa]
    exact List.all_eq_true.mp hok a ha

set_option maxRecDepth 100000 in
/-- C1 (counterexample): a parsed Phase 4 response reporting
probability 4, impact 5 but risk_score 7 is returned as-is — the returned
risks list violates `risk_score = probability * impact`. -/
theorem C1_risk_invariant_cx :
    (perform_risk_assessment [cq1] (some c1content)).map
        (fun o => o.risks.all specRiskRecordOk) = some false ∧
    (perform_risk_assessment [cq1] (some c1content)).map
        (fun o => o.risks.length) = some 1 :=
  ⟨by decide, by decide⟩

/-- A Phase 4 response whose single record also satisfies the product and
threshold rules. -/
def c1goodContent : List Char :=
  ("\x7b\"risk_assessments\": [\x7b\"question_number\": 1, \"question_text\": \"Q\", " ++
   "\"risk_category\": \"C\", \"probability\": 4, \"impact\": 5, \"risk_score\": 20, " ++
   "\"risk_tier\": \"High\", \"justification\": \"J\"\x7d]\x7d").toList

/-- The parsed form of `c1goodContent`'s single record. -/
def c1goodParsed : Json :=
  Json.obj [(kQN, Json.num 1), (kQT, Json.str "Q".toList), (kRC, Json.str "C".toList),
    (kProb, Json.num 4), (kImp, Json.num 5), (kScore, Json.num 20),
    (kTier, Json.str "High".toList), (kJust, Json.str "J".toList)]

/-- The Phase 4 output on `[cq1]` with the well-formed response. -/
def c1goodOut : RiskOutput :=
  { risks := [c1goodParsed], high_risks := 1, medium_risks := 0, low_risks := 0,
    total_risks_assessed := 1 }

set_option maxRecDepth 100000 in
/-- C1 (witness): the amended invariant transfer at a concrete compliant
response. -/
theorem C1_risk_invariant_witness :
    c1goodOut.risks.all specRiskRecordOk = true ∧ specTier (4 * 5) = "High".toList :=
  C1_risk_invariant_amended [cq1] (some c1goodContent) c1goodOut [c1goodParsed]
    (by decide) (by decide) (by decide) (by decide) (by decide)

/-! ## Claim C5 -/

/-- C5: the all-or-nothing substitution of Phase 4 — whenever the parsed
risk list is empty or its length differs from the question count (or there
was no parse at all), the returned risks are exactly the uniform
error-placeholder records, one per input question; otherwise the returned
risks are exactly the sorted enrichment of the whole parsed list, so
parsed records and synthetic placeholders never mix in one batch. -/
theorem C5_all_or_nothing
    (questions : List Json) (response : Option (List Char)) (out : RiskOutput)
    (hrun : perform_risk_assessment questions response = some out) :
    (riskMismatch questions response = true →
      omap placeholderRisk questions = some out.risks) ∧
    (riskMismatch questions response = false →
      ∃ l lst, parsedRiskList response = some (some l) ∧
        omap (enrichItem questions) l = some lst ∧
        sortRisks lst = some out.risks ∧ lst.length = l.length) := by
  obtain ⟨⟨cl, hs, hor⟩, _, _, _, _⟩ :=
    perform_risk_assessment_inv questions response out hrun
  constructor
  · intro hm
    rcases hor with ⟨_, hpl⟩ | ⟨hm2, _⟩
    · have hid := sortRisks_placeholders questions cl hpl
      rw [hid] at hs
      cases hs
      exact hpl
    · rw [hm] at hm2; cases hm2
  · intro hm
    rcases hor with ⟨hm2, _⟩ | ⟨_, l, hp2, hb⟩
    · rw [hm] at hm2; cases hm2
    · exact ⟨l, cl, hp2, hb, hs, omap_length _ l cl hb⟩

/-- C5 (witness): with no gateway response, the single question yields
exactly its uniform placeholder record. -/
theorem C5_all_or_nothing_witness :
    omap placeholderRisk [c5q] = some c5out.risks :=
  (C5_all_or_nothing [c5q] none c5out (by decide)).1 (by decide)

/-! ## Claim C10 -/

/-- Two different tier strings cannot both match one record. -/
theorem tier_match_unique (r : Json) (a b : List Char)
    (ha : optBeq (jget r kTier) (some (Json.str a)) = true)
    (hb : optBeq (jget r kTier) (some (Json.str b)) = true) : a = b := by
  cases hv : jget r kTier with
  | none => rw [hv] at ha; cases ha
  | some v =>
    rw [hv] at ha hb
    simp only [optBeq, jbeq, decide_eq_true_eq] at ha hb
    cases ha
    cases hb
    rfl

/-- Three pairwise-distinct tier strings have counts summing to at most
the list length. -/
theorem countTier_three_le (a b c : List Char) (hab : a ≠ b) (hac : a ≠ c)
    (hbc : b ≠ c) :
    ∀ l : List Json, countTier a l + countTier b l + countTier c l ≤ l.length
  | [] => by simp [countTier]
  | r :: rest => by
    have ih := countTier_three_le a b c hab hac hbc rest
    simp only [countTier, List.length_cons] at ih ⊢
    rw [List.filter_cons, List.filter_cons, List.filter_cons]
    by_cases hA : optBeq (jget r kTier) (some (Json.str a)) = true
    · have hB : ¬ optBeq (jget r kTier) (some (Json.str b)) = true := fun hc =>
        hab (tier_match_unique r a b hA hc)
      have hC : ¬ optBeq (jget r kTier) (some (Json.str c)) = true := fun hc =>
        hac (tier_match_unique r a c hA hc)
      rw [if_pos hA, if_neg hB, if_neg hC]
      simp only [List.length_cons]
      omega
    · rw [if_neg hA]
      by_cases hB : optBeq (jget r kTier) (some (Json.str b)) = true
      · have hC : ¬ optBeq (jget r kTier) (some (Json.str c)) = true := fun hc =>
          hbc (tier_match_unique r b c hB hc)
        rw [if_pos hB, if_neg hC]
        simp only [List.length_cons]
        omega
      · rw [if_neg hB]
        by_cases hC : optBeq (jget r kTier) (some (Json.str c)) = true
        · rw [if_pos hC]
          simp only [List.length_cons]
          omega
        · rw [if_neg hC]
          omega

/-- C10: in every returned Phase 4 value the summary stats are the tier
counts of the risks list and its length, the three tier counts sum to at
most the total, and (second conjunct) the sum can be strictly smaller,
since placeholder records carry tier "Error". -/
theorem C10_summary_stats :
    (∀ (questions : List Json) (response : Option (List Char)) (out : RiskOutput),
      perform_risk_assessment questions response = some out →
      out.high_risks = countTier "High".toList out.risks ∧
      out.medium_risks = countTier "Medium".toList out.risks ∧
      out.low_risks = countTier "Low".toList out.risks ∧
      out.total_risks_assessed = out.risks.length ∧
      out.high_risks + out.medium_risks + out.low_risks ≤ out.total_risks_assessed) ∧
    (perform_risk_assessment [c5q] none).map
        (fun o => decide (o.high_risks + o.medium_risks + o.low_risks
          < o.total_risks_assessed)) = some true := by
  constructor
  · intro questions response out hrun
    obtain ⟨_, h1, h2, h3, h4⟩ := perform_risk_assessment_inv questions response out hrun
    refine ⟨h1, h2, h3, h4, ?_⟩
    rw [h1, h2, h3, h4]
    exact countTier_three_le _ _ _ (by decide) (by decide) (by decide) out.risks
  · decide

/-- C10 (witness): the stats equalities at a concrete run. -/
theorem C10_summary_stats_witness :
    c5out.high_risks = countTier "High".toList c5out.risks :=
  (C10_summary_stats.1 [c5q] none c5out (by decide)).1

/-! ## Claim C6 lemmas -/

/-- `optBeq` is reflexive. -/
theorem optBeq_refl (x : Option Json) : optBeq x x = true := by
  cases x <;> simp [optBeq, jbeq]

/-- `optBeq` is symmetric. -/
theorem optBeq_symm (x y : Option Json) : optBeq x y = optBeq y x := by
  cases x <;> cases y <;> simp [optBeq, jbeq, eq_comm]

/-- Pairwise distinct question numbers make records with equal numbers
identical. -/
theorem qnsDistinct_inj :
    ∀ l : List Json, qnsDistinct l = true →
      ∀ a ∈ l, ∀ b ∈ l, optBeq (jget a kQN) (jget b kQN) = true → a = b
  | [], _, a, ha, b, hb, hab => by cases ha
  | r :: rest, h, a, ha, b, hb, hab => by
    simp only [qnsDistinct, Bool.and_eq_true, List.all_eq_true] at h
    obtain ⟨h1, h2⟩ := h
    rcases List.mem_cons.mp ha with rfl | ha2
    · rcases List.mem_cons.mp hb with rfl | hb2
      · rfl
      · have := h1 b hb2
        rw [hab] at this
        cases this
    · rcases List.mem_cons.mp hb with rfl | hb2
      · have := h1 a ha2
        rw [optBeq_symm, hab] at this
        cases this
      · exact qnsDistinct_inj rest h2 a ha2 b hb2 hab

/-- Pairwise distinct question numbers give a duplicate-free list. -/
theorem qnsDistinct_nodup :
    ∀ l : List Json, qnsDistinct l = true → l.Nodup
  | [], _ => List.nodup_nil
  | r :: rest, h => by
    simp only [qnsDistinct, Bool.and_eq_true, List.all_eq_true] at h
    obtain ⟨h1, h2⟩ := h
    rw [List.nodup_cons]
    refine ⟨fun hmem => ?_, qnsDistinct_nodup rest h2⟩
    have := h1 r hmem
    rw [optBeq_refl] at this
    cases this

/-- Under distinct question numbers, the loop's `question_number` match
against the high-priority sublist is exactly membership in it. -/
theorem matchHp_iff (l hp : List Json) (x : Json)
    (hsub : ∀ h ∈ hp, h ∈ l) (hx : x ∈ l)
    (hinj : ∀ a ∈ l, ∀ b ∈ l, optBeq (jget a kQN) (jget b kQN) = true → a = b) :
    (matchHp hp x = true ↔ x ∈ hp) := by
  constructor
  · intro hm
    obtain ⟨h, hh, hbeq⟩ := List.any_eq_true.mp hm
    have := hinj h (hsub h hh) x hx hbeq
    rw [← this]
    exact hh
  · intro hm
    exact List.any_eq_true.mpr ⟨x, hm, optBeq_refl _⟩

/-- `specSel` of a list with no qualifying record is empty. -/
theorem specSel_nil_of_no_match :
    ∀ (l : List Json) (idx budget : Nat),
      (∀ x ∈ l, ¬ (15 ≤ (scoreKey x).getD 0)) → specSel idx budget l = []
  | [], _, _, _ => rfl
  | x :: rest, idx, budget, h => by
    have hx := h x (List.mem_cons_self _ _)
    simp only [specSel, if_neg hx]
    exact specSel_nil_of_no_match rest (idx + 1) budget
      (fun y hy => h y (List.mem_cons_of_mem _ hy))

/-- Indexing a mapped list. -/
theorem getD_map_lt (f : Json → Json) :
    ∀ (l : List Json) (i : Nat), i < l.length →
      (l.map f).getD i Json.null = f (l.getD i Json.null)
  | [], i, h => by cases h
  | x :: rest, 0, _ => rfl
  | x :: rest, i + 1, h =>
    getD_map_lt f rest i (by simpa using h)

/-- A valid index reads a member. -/
theorem getD_mem :
    ∀ (l : List Json) (i : Nat), i < l.length → l.getD i Json.null ∈ l
  | [], i, h => by cases h
  | x :: rest, 0, _ => List.mem_cons_self _ _
  | x :: rest, i + 1, h =>
    List.mem_cons_of_mem _ (getD_mem rest i (by simpa using h))

/-- A record with a numeric-or-absent score is an object. -/
theorem scoreKey_isSome_obj (r : Json) (h : (scoreKey r).isSome = true) :
    isObjB r = true := by
  cases r <;> simp [scoreKey, isObjB] at h ⊢

/-- The de-risking loop: attempted indices are exactly the spec selection
with the given budget, lengths are preserved, and every unattempted record
without a pre-existing plan is returned with the "not selected this run"
marker. -/
theorem deriskLoop_spec (hp : List Json) (oracle : List (Option (List Char))) :
    ∀ (suf : List Json) (idx used budget : Nat) (out : List Json) (atts : List Nat),
      deriskLoop hp oracle suf idx used = some (out, atts) →
      suf.Nodup →
      (∀ x ∈ suf, (matchHp hp x = true ↔
        x ∈ (suf.filter (fun r => decide (15 ≤ (scoreKey r).getD 0))).take budget)) →
      noPrePlans suf = true →
      atts = specSel idx budget suf ∧ out.length = suf.length ∧
        (∀ i, i < suf.length → (idx + i) ∉ atts →
          out.getD i Json.null = setKeyJ (suf.getD i Json.null) kDRP notThisRunMarker)
  | [], idx, used, budget, out, atts, h, _, _, _ => by
    simp only [deriskLoop] at h
    cases h
    exact ⟨rfl, rfl, fun i hi => by cases hi⟩
  | item :: rest, idx, used, budget, out, atts, h, hnd, hinv, hnp => by
    have hnd' : rest.Nodup := (List.nodup_cons.mp hnd).2
    have hitem_notmem : item ∉ rest := (List.nodup_cons.mp hnd).1
    have hnp' : noPrePlans rest = true := by
      simp only [noPrePlans, List.all_eq_true] at hnp ⊢
      exact fun x hx => hnp x (List.mem_cons_of_mem _ hx)
    have hitemplan : (jget item kDRP).isNone = true := by
      simp only [noPrePlans, List.all_eq_true] at hnp
      exact hnp item (List.mem_cons_self _ _)
    simp only [deriskLoop] at h
    cases hmatch : matchHp hp item with
    | true =>
      rw [hmatch] at h
      simp only [if_true] at h
      have hin : item ∈ ((item :: rest).filter
          (fun r => decide (15 ≤ (scoreKey r).getD 0))).take budget :=
        (hinv item (List.mem_cons_self _ _)).mp hmatch
      have hpitem : decide (15 ≤ (scoreKey item).getD 0) = true :=
        (List.mem_filter.mp (List.mem_of_mem_take hin)).2
      have hpitem' : 15 ≤ (scoreKey item).getD 0 := of_decide_eq_true hpitem
      cases budget with
      | zero => simp at hin
      | succ b =>
        cases hplan : planFromResponse (oracle.getD used none) with
        | none => rw [hplan] at h; cases h
        | some plan =>
          rw [hplan] at h
          cases hrec : deriskLoop hp oracle rest (idx + 1) (used + 1) with
          | none => rw [hrec] at h; cases h
          | some pr =>
            rw [hrec] at h
            cases h
            have hinv' : ∀ x ∈ rest, (matchHp hp x = true ↔
                x ∈ (rest.filter (fun r => decide (15 ≤ (scoreKey r).getD 0))).take b) := by
              intro y hy
              have := hinv y (List.mem_cons_of_mem _ hy)
              rw [List.filter_cons, if_pos hpitem, List.take_succ_cons] at this
              rw [this, List.mem_cons]
              constructor
              · rintro (rfl | h2)
                · cases hitem_notmem hy
                · exact h2
              · exact Or.inr
            obtain ⟨ha, hl, hm⟩ :=
              deriskLoop_spec hp oracle rest (idx + 1) (used + 1) b pr.1 pr.2
                hrec hnd' hinv' hnp'
            refine ⟨?_, ?_, ?_⟩
            · simp only [specSel, if_pos hpitem', if_pos (Nat.succ_pos b),
                Nat.add_sub_cancel]
              rw [ha]
            · simp [hl]
            · intro i hi hni
              cases i with
              | zero =>
                exfalso
                apply hni
                simp
              | succ i' =>
                simp only [List.getD_cons_succ]
                have hni' : (idx + 1 + i') ∉ pr.2 := by
                  intro hc
                  exact hni (by
                    rw [List.mem_cons]
                    right
                    have : idx + (i' + 1) = idx + 1 + i' := by omega
                    rw [this]
                    exact hc)
                exact hm i' (by simpa using hi) hni'
    | false =>
      rw [hmatch] at h
      simp only [Bool.false_eq_true, if_false] at h
      have hitem2 : (if (jget item kDRP).isSome then item
          else setKeyJ item kDRP notThisRunMarker) = setKeyJ item kDRP notThisRunMarker := by
        rw [if_neg]
        rw [Option.isNone_iff_eq_none] at hitemplan
        simp [hitemplan]
      rw [hitem2] at h
      have hnotin : item ∉ ((item :: rest).filter
          (fun r => decide (15 ≤ (scoreKey r).getD 0))).take budget := by
        intro hc
        have := (hinv item (List.mem_cons_self _ _)).mpr hc
        rw [hmatch] at this
        cases this
      cases hrec : deriskLoop hp oracle rest (idx + 1) used with
      | none => rw [hrec] at h; cases h
      | some pr =>
        rw [hrec] at h
        cases h
        by_cases hpitem : decide (15 ≤ (scoreKey item).getD 0) = true
        · -- the record qualifies but the budget is exhausted
          have hbudget : budget = 0 := by
            cases budget with
            | zero => rfl
            | succ b =>
              exfalso
              apply hnotin
              rw [List.filter_cons, if_pos hpitem, List.take_succ_cons]
              exact List.mem_cons_self _ _
          subst hbudget
          have hinv' : ∀ x ∈ rest, (matchHp hp x = true ↔
              x ∈ (rest.filter (fun r => decide (15 ≤ (scoreKey r).getD 0))).take 0) := by
            intro y hy
            have := hinv y (List.mem_cons_of_mem _ hy)
            simpa using this
          obtain ⟨ha, hl, hm⟩ :=
            deriskLoop_spec hp oracle rest (idx + 1) used 0 pr.1 pr.2 hrec hnd' hinv' hnp'
          refine ⟨?_, by simp [hl], ?_⟩
          · simp only [specSel, if_pos (of_decide_eq_true hpitem)]
            rw [if_neg (by omega)]
            exact ha
          · intro i hi hni
            cases i with
            | zero => simp
            | succ i' =>
              simp only [List.getD_cons_succ]
              have hni' : (idx + 1 + i') ∉ pr.2 := by
                have heq : idx + (i' + 1) = idx + 1 + i' := by omega
                rw [← heq]
                exact hni
              exact hm i' (by simpa using hi) hni'
        · have hinv' : ∀ x ∈ rest, (matchHp hp x = true ↔
              x ∈ (rest.filter (fun r => decide (15 ≤ (scoreKey r).getD 0))).take budget) := by
            intro y hy
            have := hinv y (List.mem_cons_of_mem _ hy)
            rw [List.filter_cons, if_neg hpitem] at this
            exact this
          obtain ⟨ha, hl, hm⟩ :=
            deriskLoop_spec hp oracle rest (idx + 1) used budget pr.1 pr.2 hrec hnd' hinv' hnp'
          refine ⟨?_, by simp [hl], ?_⟩
          · simp only [specSel, if_neg (fun hc => hpitem (decide_eq_true hc))]
            exact ha
          · intro i hi hni
            cases i with
            | zero => simp
            | succ i' =>
              simp only [List.getD_cons_succ]
              have hni' : (idx + 1 + i') ∉ pr.2 := by
                have heq : idx + (i' + 1) = idx + 1 + i' := by omega
                rw [← heq]
                exact hni
              exact hm i' (by simpa using hi) hni'

/-! ## Claim C6 -/

/-- C6 (amended): provided the records carry pairwise distinct
`question_number` values and none already has a `de_risking_plan` field,
`develop_derisking_strategies` on a score-descending list attempts a plan
for exactly the records with `risk_score ≥ 15` capped at the first 3, and
every non-selected record is returned with an explicit "not selected"
status marker in `de_risking_plan` (the counterexample shows both side
conditions are necessary: selection matches by `question_number`, so a
duplicate number drags a sub-threshold record in, and a pre-existing
`de_risking_plan` field is preserved instead of being marked). -/
theorem C6_derisk_amended (l : List Json) (oracle : List (Option (List Char)))
    (out : List Json) (atts : List Nat)
    (hrun : develop_derisking_strategies l oracle = some (out, atts))
    (hd : qnsDistinct l = true) (hnp : noPrePlans l = true)
    (_hsorted : sortedDescB l = true) :
    atts = specSelectedIdx l ∧ out.length = l.length ∧
      (∀ i, i < l.length → i ∉ atts →
        jget (out.getD i Json.null) kDRP = some notThisRunMarker ∨
        jget (out.getD i Json.null) kDRP = some noHpMarker) := by
  unfold develop_derisking_strategies at hrun
  cases hall : l.all (fun r => (scoreKey r).isSome) with
  | false =>
    rw [hall] at hrun
    simp only [Bool.not_false, if_true] at hrun
    cases hrun
  | true =>
    rw [hall] at hrun
    simp only [Bool.not_true, Bool.false_eq_true, if_false] at hrun
    have hobj : ∀ r ∈ l, isObjB r = true := by
      intro r hr
      exact scoreKey_isSome_obj r (List.all_eq_true.mp hall r hr)
    have hplanfield : ∀ r ∈ l, (jget r kDRP).isNone = true := by
      intro r hr
      exact List.all_eq_true.mp hnp r hr
    have hrun2 : (if ((l.filter (fun r => decide (15 ≤ (scoreKey r).getD 0))).take 3).isEmpty
        then some (l.map (fun r => if (jget r kDRP).isSome then r
          else setKeyJ r kDRP noHpMarker), ([] : List Nat))
        else deriskLoop ((l.filter (fun r => decide (15 ≤ (scoreKey r).getD 0))).take 3)
          oracle l 0 0) = some (out, atts) := hrun
    cases hhp : ((l.filter (fun r => decide (15 ≤ (scoreKey r).getD 0))).take 3).isEmpty with
    | true =>
      rw [hhp] at hrun2
      have hrun3 : some (l.map (fun r => if (jget r kDRP).isSome then r
          else setKeyJ r kDRP noHpMarker), ([] : List Nat)) = some (out, atts) := hrun2
      cases hrun3
      have hfilnil : l.filter (fun r => decide (15 ≤ (scoreKey r).getD 0)) = [] := by
        cases hfil : l.filter (fun r => decide (15 ≤ (scoreKey r).getD 0)) with
        | nil => rfl
        | cons x xs =>
          rw [hfil] at hhp
          simp [List.take] at hhp
      have hsel : specSelectedIdx l = [] := by
        unfold specSelectedIdx
        refine specSel_nil_of_no_match l 0 3 ?_
        intro x hx hc
        have := List.filter_eq_nil_iff.mp hfilnil x hx
        exact this (decide_eq_true hc)
      refine ⟨hsel.symm, by simp, ?_⟩
      intro i hi _
      right
      rw [getD_map_lt _ l i hi]
      have hmem := getD_mem l i hi
      rw [if_neg (by
        rw [Option.isNone_iff_eq_none.mp (hplanfield (l.getD i Json.null) hmem)]
        simp)]
      exact jget_setKeyJ_self _ _ _ (hobj _ hmem)
    | false =>
      rw [hhp] at hrun2
      have hrun3 : deriskLoop
          ((l.filter (fun r => decide (15 ≤ (scoreKey r).getD 0))).take 3)
          oracle l 0 0 = some (out, atts) := hrun2
      have hinj := qnsDistinct_inj l hd
      have hinv : ∀ x ∈ l, (matchHp
          ((l.filter (fun r => decide (15 ≤ (scoreKey r).getD 0))).take 3) x = true ↔
          x ∈ (l.filter (fun r => decide (15 ≤ (scoreKey r).getD 0))).take 3) := by
        intro x hx
        refine matchHp_iff l _ x ?_ hx hinj
        intro h hh
        exact (List.mem_filter.mp (List.mem_of_mem_take hh)).1
      obtain ⟨ha, hl, hm⟩ := deriskLoop_spec _ oracle l 0 0 3 out atts hrun3
        (qnsDistinct_nodup l hd) hinv hnp
      refine ⟨ha, hl, ?_⟩
      intro i hi hni
      left
      rw [hm i hi (by rw [Nat.zero_add]; exact hni)]
      exact jget_setKeyJ_self _ _ _ (hobj _ (getD_mem l i hi))

/-- C6 (counterexample): on the score-descending list
[qn 1/score 20, qn 1/score 3, qn 2/score 2 with a pre-existing plan], the
loop attempts calls for indices 0 and 1 — including the score-3 record,
which shares question number 1 with the selected record — and the third
record keeps its old plan value instead of a "not selected" marker. -/
theorem C6_derisk_cx :
    sortedDescB c6cxInput = true ∧
    (develop_derisking_strategies c6cxInput c6oracle).map (fun p => p.2) = some [0, 1] ∧
    (scoreKey c6b).getD 0 = 3 ∧
    (develop_derisking_strategies c6cxInput c6oracle).map
        (fun p => jget (p.1.getD 2 Json.null) kDRP)
      = some (some (Json.str "old plan".toList)) :=
  ⟨by decide, by decide, by decide, by decide⟩

/-- C6 (witness): the amended selection rule at a single qualifying
record. -/
theorem C6_derisk_witness :
    ([0] : List Nat) = specSelectedIdx c6wInput :=
  (C6_derisk_amended c6wInput [none] [setKeyJ c6a kDRP c6noRespPlan] [0]
    (by decide) (by decide) (by decide) (by decide)).1

/-! ## Claim C8 -/

/-- C8 (amended): whenever `perform_strategic_reflection` returns, the
artifact it returns is exactly the parsed truthy JSON object carrying all
three reflection keys (and `none` otherwise), and the reflection file is
written exactly when an artifact is returned. The claimed right-to-left
direction fails as stated: a response that parses to an object with all
three keys but a truthy non-iterable value under one of them makes the
display loop raise before returning or writing anything, so the scope is
restricted to runs that return. -/
theorem C8_reflect_amended (fq ra dr : Json) (resp : Option (List Char))
    (out : Option Json × Bool)
    (hrun : perform_strategic_reflection fq ra dr resp = some out) :
    out.1 = reflectParsedObj resp ∧ out.2 = out.1.isSome := by
  unfold perform_strategic_reflection at hrun
  cases hargs : reflectArgsOk fq ra dr with
  | false =>
    rw [hargs] at hrun
    exact Option.noConfusion hrun
  | true =>
    rw [hargs] at hrun
    cases resp with
    | none =>
      have h2 : some ((none : Option Json), false) = some out := hrun
      cases h2
      exact ⟨rfl, rfl⟩
    | some content =>
      have hrun1 : (match parse_json_from_llm_response content with
        | none => some ((none : Option Json), false)
        | some p => reflectStep p) = some out := hrun
      have hro : reflectParsedObj (some content) =
          (match parse_json_from_llm_response content with
            | some (Json.obj kvs) =>
              if jsonTruthy (Json.obj kvs) && (lookupKV kLike kvs).isSome &&
                  (lookupKV kWish kvs).isSome && (lookupKV kWonder kvs).isSome
              then some (Json.obj kvs) else none
            | _ => none) := rfl
      rw [hro]
      cases hparse : parse_json_from_llm_response content with
      | none =>
        rw [hparse] at hrun1
        have h2 : some ((none : Option Json), false) = some out := hrun1
        cases h2
        exact ⟨rfl, rfl⟩
      | some p =>
        rw [hparse] at hrun1
        have h2 : reflectStep p = some out := hrun1
        unfold reflectStep at h2
        cases p with
        | obj kvs =>
          cases htr : jsonTruthy (Json.obj kvs) with
          | false =>
            rw [htr] at h2
            have h3 : some ((none : Option Json), false) = some out := h2
            cases h3
            exact ⟨by simp [htr], rfl⟩
          | true =>
            rw [htr] at h2
            have h3 : (if (lookupKV kLike kvs).isSome && (lookupKV kWish kvs).isSome &&
                (lookupKV kWonder kvs).isSome then
                if badReflectVal ((lookupKV kLike kvs).getD Json.null) ||
                    badReflectVal ((lookupKV kWish kvs).getD Json.null) ||
                    badReflectVal ((lookupKV kWonder kvs).getD Json.null) then none
                else some (some (Json.obj kvs), true)
              else some ((none : Option Json), false)) = some out := h2
            cases hkeys : ((lookupKV kLike kvs).isSome && (lookupKV kWish kvs).isSome &&
                (lookupKV kWonder kvs).isSome) with
            | false =>
              rw [hkeys] at h3
              have h4 : some ((none : Option Json), false) = some out := h3
              cases h4
              exact ⟨by simp [htr, hkeys], rfl⟩
            | true =>
              rw [hkeys] at h3
              cases hbad : (badReflectVal ((lookupKV kLike kvs).getD Json.null) ||
                  badReflectVal ((lookupKV kWish kvs).getD Json.null) ||
                  badReflectVal ((lookupKV kWonder kvs).getD Json.null)) with
              | true =>
                rw [hbad] at h3
                exact Option.noConfusion h3
              | false =>
                rw [hbad] at h3
                have h4 : some (some (Json.obj kvs), true) = some out := h3
                cases h4
                exact ⟨by simp [htr, hkeys], rfl⟩
        | arr l =>
          cases htr : jsonTruthy (Json.arr l) with
          | false =>
            rw [htr] at h2
            have h3 : some ((none : Option Json), false) = some out := h2
            cases h3
            exact ⟨rfl, rfl⟩
          | true =>
            rw [htr] at h2
            have h3 : (if l.any (fun x => jbeq x (Json.str kLike)) &&
                l.any (fun x => jbeq x (Json.str kWish)) &&
                l.any (fun x => jbeq x (Json.str kWonder)) then none
              else some ((none : Option Json), false)) = some out := h2
            cases hany : (l.any (fun x => jbeq x (Json.str kLike)) &&
                l.any (fun x => jbeq x (Json.str kWish)) &&
                l.any (fun x => jbeq x (Json.str kWonder))) with
            | true =>
              rw [hany] at h3
              exact Option.noConfusion h3
            | false =>
              rw [hany] at h3
              have h4 : some ((none : Option Json), false) = some out := h3
              cases h4
              exact ⟨rfl, rfl⟩
        | str s =>
          cases htr : jsonTruthy (Json.str s) with
          | false =>
            rw [htr] at h2
            have h3 : some ((none : Option Json), false) = some out := h2
            cases h3
            exact ⟨rfl, rfl⟩
          | true =>
            rw [htr] at h2
            have h3 : (if containsSub kLike s && containsSub kWish s && containsSub kWonder s
                then none else some ((none : Option Json), false)) = some out := h2
            cases hsub : (containsSub kLike s && containsSub kWish s && containsSub kWonder s) with
            | true =>
              rw [hsub] at h3
              exact Option.noConfusion h3
            | false =>
              rw [hsub] at h3
              have h4 : some ((none : Option Json), false) = some out := h3
              cases h4
              exact ⟨rfl, rfl⟩
        | null =>
          have h3 : some ((none : Option Json), false) = some out := h2
          cases h3
          exact ⟨rfl, rfl⟩
        | bool b =>
          cases htr : jsonTruthy (Json.bool b) with
          | false =>
            rw [htr] at h2
            have h3 : some ((none : Option Json), false) = some out := h2
            cases h3
            exact ⟨rfl, rfl⟩
          | true =>
            rw [htr] at h2
            exact Option.noConfusion h2
        | num n =>
          cases htr : jsonTruthy (Json.num n) with
          | false =>
            rw [htr] at h2
            have h3 : some ((none : Option Json), false) = some out := h2
            cases h3
            exact ⟨rfl, rfl⟩
          | true =>
            rw [htr] at h2
            exact Option.noConfusion h2

set_option maxRecDepth 400000 in
/-- C8 (counterexample): `c8bad` parses to an object carrying all three
reflection keys, yet the display loop raises on the truthy numeric value
under the first key, so no artifact is returned and no file is written. -/
theorem C8_reflect_cx :
    perform_strategic_reflection Json.null Json.null Json.null (some c8bad) = none ∧
    (reflectParsedObj (some c8bad)).isSome = true :=
  ⟨by decide, by decide⟩

set_option maxRecDepth 400000 in
/-- C8 (witness): the amended contract at the well-formed response
`c8good`. -/
theorem C8_reflect_witness :
    ((some c8goodParsed : Option Json), true).1 = reflectParsedObj (some c8good) :=
  (C8_reflect_amended Json.null Json.null Json.null (some c8good)
    (some c8goodParsed, true) (by decide)).1
